import Mathlib

/-!
# hm-currentloop: loop current input (4-20 mA) for HomeMatic

A shallow embedding of `src/main.cpp` (an Arduino Nano V3 sketch) and the
properties of its measurement-and-transmission loop.

Conventions of the embedding

* The target is an AVR: `int` has 16 bits, `long` and `unsigned long` have 32
  bits, `uint8_t` has 8 bits.  Machine integers are `Int`/`Nat` values, and
  every operation that can leave the range of its C++ type is followed by the
  matching wrap (`wrapInt`, `wrapLong`, `toU8`, `% 2 ^ 32`).
* The global variables, the two port registers, the two digital lines written
  through `digitalWrite` and the counters of the input streams form `State`.
  The levels of the lines written through `digitalWrite` (trigger, LED) are
  kept apart from the values assigned to the registers `PORTB` and `PORTD`.
* Everything the sketch does to the outside world is appended to
  `State.trace` in program order.
* The analog input and the millisecond clock are inputs: `Env.analogIn k` is
  the value returned by the `k`-th call of `analogRead`, `Env.millisIn k` the
  clock value at the `k`-th call of `millis`.
-/

namespace HmCurrentLoop

/-! ## Constant expressions of type `double` -/

/-- Value of a `double` constant expression, kept exactly as a fraction
`num / den`.  The two expressions evaluated in the sketch are 87.505... and
962.56, far away from an integer, so rounding of the `double` operations
cannot change their truncation. -/
structure Frac where
  num : Int
  den : Nat
deriving Repr, DecidableEq

instance : OfNat Frac n := ⟨⟨n, 1⟩⟩

instance : Mul Frac := ⟨fun a b => ⟨a.num * b.num, a.den * b.den⟩⟩

/-- Division by a positive fraction (all divisors of the sketch are positive). -/
instance : Div Frac := ⟨fun a b => ⟨a.num * b.den, a.den * b.num.toNat⟩⟩

/-- Conversion `double` to `int`: truncation toward zero. -/
def Frac.toInt (x : Frac) : Int := Int.tdiv x.num x.den

/-! ## Configuration and constants (main.cpp lines 23-115) -/

/-- Minimum valid loop current [mA]. -/
def LOOP_CURRENT_MIN : Frac := ⟨2, 1⟩

/-- Maximum valid loop current [mA]. -/
def LOOP_CURRENT_MAX : Frac := ⟨22, 1⟩

/-- Minimum send interval [s] (`uint32_t`). -/
def SEND_INTERVAL_MIN : Nat := 60

/-- Pause after startup before the first measurement [ms]. -/
def STARTUP_PAUSE : Nat := 4000

/-- Pause between measurements [ms]. -/
def MEASUREMENT_PAUSE : Nat := 5000

/-- Pause between samples [ms]. -/
def SAMPLE_PAUSE : Nat := 10

/-- Number of samples for the average calculation. -/
def NUM_SAMPLES : Nat := 8

/-- Arduino pin number of `A6` on the Nano board. -/
def A6 : Nat := 20

/-- Arduino pin number of the built-in LED on the Nano board. -/
def LED_BUILTIN : Nat := 13

/-- Analog pin reading the voltage drop at the shunt resistor. -/
def LOOP_CURRENT_PIN : Nat := A6

/-- Pin that triggers a send. -/
def TRIGGER_SEND_PIN : Nat := 2

/-- Shunt resistor [ohm]. -/
def SHUNT : Frac := ⟨47, 1⟩

def BLINK_TIME_NOT_ELAPSED : Nat := 1
def BLINK_DELTA_NOT_REACHED : Nat := 2
def BLINK_NOT_CHANGED : Nat := 3
def BLINK_SEND : Nat := 4

/-- Baud rate for monitoring [bits/s]. -/
def BAUD_RATE : Nat := 115200

/-- Output start of range. -/
def OUT_MIN : Nat := 0

/-- Output end of range. -/
def OUT_MAX : Nat := 254

/-- Invalid measurement value. -/
def OUT_INVALID : Nat := 255

/-- ADC reference voltage [V]. -/
def ADC_REFERENCE : Frac := ⟨11, 10⟩

/-! ## Machine integers -/

/-- Wrap into the range of `int` (16 bit two's complement). -/
def wrapInt (x : Int) : Int := (x + 32768) % 65536 - 32768

/-- Wrap into the range of `long` (32 bit two's complement). -/
def wrapLong (x : Int) : Int := (x + 2147483648) % 4294967296 - 2147483648

/-- Conversion of an integer value to `uint8_t`. -/
def toU8 (x : Int) : Nat := (x % 256).toNat

/-- Subtraction of two `unsigned long` values. -/
def subU32 (a b : Nat) : Nat := (a % 2 ^ 32 + (2 ^ 32 - b % 2 ^ 32)) % 2 ^ 32

/-- Multiplication of two `uint32_t` values. -/
def mulU32 (a b : Nat) : Nat := (a * b) % 2 ^ 32

/-- Map current [mA] to ADC value. -/
def mapCurrentToADC (current : Frac) : Int :=
  wrapInt (Frac.toInt (SHUNT * current / 1000 / ADC_REFERENCE * 1024))

/-- ADC value for `LOOP_CURRENT_MIN`. -/
def ADC_MIN : Int := mapCurrentToADC LOOP_CURRENT_MIN

/-- ADC value for `LOOP_CURRENT_MAX`. -/
def ADC_MAX : Int := mapCurrentToADC LOOP_CURRENT_MAX

/-- Invalid ADC value: the literal `0x8000` converted to the 16-bit `int`. -/
def ADC_INVALID : Int := wrapInt 0x8000

/-- Minimum delta for detecting a changed raw ADC value. -/
def ADC_DELTA : Int := 3

/-! ## Arduino core functions used by the sketch -/

/-- Modelled from the spec: the macro `abs` of the Arduino core (`Arduino.h`) is
not part of the repository; it is `((x)>0?(x):-(x))`, here at type `int`. -/
def abs (x : Int) : Int := if x > 0 then x else wrapInt (-x)

/-- Modelled from the spec: the function `map` of the Arduino core is not part
of the repository.  It is the standard range mapping
`(x - in_min) * (out_max - out_min) / (in_max - in_min) + out_min` on `long`
operands, with the truncating division of C++. -/
def map (x in_min in_max out_min out_max : Int) : Int :=
  wrapLong (wrapLong (Int.tdiv
    (wrapLong (wrapLong (x - in_min) * wrapLong (out_max - out_min)))
    (wrapLong (in_max - in_min))) + out_min)

/-! ## Environment, state and observable events -/

/-- What the sketch does to the outside world, one entry per call. -/
inductive Event where
  | pinMode (pin mode : Nat)
  | analogReference (mode : Nat)
  | analogRead (pin : Nat) (value : Int)
  | digitalWrite (pin : Nat) (high : Bool)
  | delay (ms : Nat)
  | millis (value : Nat)
  | writePORTB (value : Nat)
  | writePORTD (value : Nat)
  | writeDDRB (value : Nat)
  | writeDDRD (value : Nat)
  | serialBegin (baud : Nat)
  | serialPrint (text : String)
  | serialPrintln (text : String)
  | serialPrintlnInt (value : Int)
deriving Repr, DecidableEq

/-- The inputs of the sketch: the analog samples and the clock values, in the
order in which they are read. -/
structure Env where
  analogIn : Nat → Int
  millisIn : Nat → Nat

/-- Global variables of the sketch and the registers and lines it drives. -/
structure State where
  /-- millisecond of the last sending (`unsigned long`) -/
  lastSending : Nat
  /-- last ADC value (`int`) -/
  lastAdc : Int
  /-- last out value (`uint8_t`) -/
  lastOut : Nat
  PORTB : Nat
  PORTD : Nat
  DDRB : Nat
  DDRD : Nat
  /-- level of `TRIGGER_SEND_PIN` as set by `digitalWrite` -/
  triggerLine : Bool
  /-- level of `LED_BUILTIN` as set by `digitalWrite` -/
  led : Bool
  /-- number of `analogRead` calls made so far -/
  analogReads : Nat
  /-- number of `millis` calls made so far -/
  millisReads : Nat
  trace : List Event

def emit (e : Event) (s : State) : State :=
  { s with trace := s.trace ++ [e] }

def delay (ms : Nat) (s : State) : State := emit (.delay ms) s

def pinMode (pin mode : Nat) (s : State) : State := emit (.pinMode pin mode) s

def analogReference (mode : Nat) (s : State) : State :=
  emit (.analogReference mode) s

def serialBegin (baud : Nat) (s : State) : State := emit (.serialBegin baud) s

def serialPrint (text : String) (s : State) : State := emit (.serialPrint text) s

def serialPrintln (text : String) (s : State) : State :=
  emit (.serialPrintln text) s

def serialPrintlnInt (value : Int) (s : State) : State :=
  emit (.serialPrintlnInt value) s

/-- The write of a digital line.  The line keeps its own level; the sketch
uses `digitalWrite` for the trigger line and the LED only. -/
def digitalWrite (pin : Nat) (high : Bool) (s : State) : State :=
  let s := emit (.digitalWrite pin high) s
  if pin = TRIGGER_SEND_PIN then { s with triggerLine := high }
  else if pin = LED_BUILTIN then { s with led := high }
  else s

/-- The next sample of the analog input. -/
def analogRead (env : Env) (pin : Nat) (s : State) : Int × State :=
  let value := env.analogIn s.analogReads
  (value, emit (.analogRead pin value) { s with analogReads := s.analogReads + 1 })

/-- The millisecond counter, an `unsigned long`. -/
def millis (env : Env) (s : State) : Nat × State :=
  let value := env.millisIn s.millisReads % 2 ^ 32
  (value, emit (.millis value) { s with millisReads := s.millisReads + 1 })

def setPORTB (value : Nat) (s : State) : State :=
  emit (.writePORTB value) { s with PORTB := value }

def setPORTD (value : Nat) (s : State) : State :=
  emit (.writePORTD value) { s with PORTD := value }

def setDDRB (value : Nat) (s : State) : State :=
  emit (.writeDDRB value) { s with DDRB := value }

def setDDRD (value : Nat) (s : State) : State :=
  emit (.writeDDRD value) { s with DDRD := value }

/-- Pin mode `OUTPUT` of the Arduino core. -/
def OUTPUT : Nat := 1

/-- Analog reference `INTERNAL` (1.1 V) of the Arduino core. -/
def INTERNAL : Nat := 3

/-! ## Functions of the sketch (main.cpp lines 130-263) -/

/-- Blinks the LED. -/
def blink : Nat → State → State
  | 0, s => s
  | times + 1, s =>
    let s := digitalWrite LED_BUILTIN true s
    let s := delay 125 s
    let s := digitalWrite LED_BUILTIN false s
    let s := if times + 1 > 1 then delay 125 s else s
    blink times s

/-- The `for` loop of `readAverage` with `cnt` iterations left, followed by the
rest of the function. -/
def readAverageLoop (env : Env) : Nat → Int → State → Int × State
  | 0, avg, s =>
    -- calculate average
    let avg := wrapInt (Int.tdiv avg NUM_SAMPLES)
    let s := serialPrint "AVG: " s
    let s := serialPrintlnInt avg s
    (avg, s)
  | cnt + 1, avg, s =>
    let r := analogRead env LOOP_CURRENT_PIN s
    let adcValue := r.1
    let s := r.2
    let s := serialPrint "ADC: " s
    let s := serialPrintlnInt adcValue s
    if adcValue < ADC_MIN ∨ adcValue > ADC_MAX then
      let s := serialPrintln "OUT OF RANGE" s
      (ADC_INVALID, s)
    else
      let avg := wrapInt (avg + adcValue)
      let s := delay SAMPLE_PAUSE s
      readAverageLoop env cnt avg s

/-- Read values from ADC and calculate average
(returns `ADC_INVALID`, if value is out of range). -/
def readAverage (env : Env) (s : State) : Int × State :=
  readAverageLoop env NUM_SAMPLES 0 s

/-- Map ADC value to output value. -/
def mapToOut (adcValue : Int) (s : State) : Nat × State :=
  if adcValue = ADC_INVALID then
    (OUT_INVALID, s)
  else
    let out := map adcValue ADC_MIN ADC_MAX OUT_MIN OUT_MAX
    let s := serialPrint "OUT: " s
    let s := serialPrintlnInt out s
    (toU8 out, s)

/-- Set output value. -/
def setOut (env : Env) (out : Nat) (s : State) : State :=
  let s := setPORTB (((s.PORTB &&& 0b11100000) ||| (out &&& 0b00011111)) % 256) s
  let s := setPORTD (((s.PORTD &&& 0b00011111) ||| (out &&& 0b11100000)) % 256) s
  -- trigger
  let s := digitalWrite TRIGGER_SEND_PIN true s
  let s := delay 300 s
  let s := digitalWrite TRIGGER_SEND_PIN false s
  let r := millis env s
  let s := { r.2 with lastSending := r.1 }
  let s := { s with lastOut := out }
  let s := serialPrintln "SENT" s
  blink BLINK_SEND s

def setup (env : Env) (s : State) : State :=
  let s := pinMode LED_BUILTIN OUTPUT s
  -- set ADC reference to 1.1V
  let s := analogReference INTERNAL s
  -- throw away first ADC read
  let s := (analogRead env LOOP_CURRENT_PIN s).2
  -- set PB0 - PB4 and PD5 - PD7 to output
  let s := setDDRB ((s.DDRB ||| 0b00011111) % 256) s
  let s := setDDRD ((s.DDRD ||| 0b11100000) % 256) s
  -- init send trigger pin
  let s := pinMode TRIGGER_SEND_PIN OUTPUT s
  let s := digitalWrite TRIGGER_SEND_PIN false s
  -- start message
  let s := serialBegin BAUD_RATE s
  let s := serialPrintln "*** HM-CURRENTLOOP ***" s
  let s := serialPrint "ADC_MIN: " s
  let s := serialPrintlnInt ADC_MIN s
  let s := serialPrint "ADC_MAX: " s
  let s := serialPrintlnInt ADC_MAX s
  -- read and send first time
  let s := delay STARTUP_PAUSE s
  let s := serialPrintln "---" s
  let r := readAverage env s
  let adc := r.1
  let s := { r.2 with lastAdc := adc }
  let m := mapToOut adc s
  let out := m.1
  let s := m.2
  setOut env out s

def loop (env : Env) (s : State) : State :=
  -- read and send, if send interval elapsed and value changed
  let s := delay MEASUREMENT_PAUSE s
  let s := serialPrintln "---" s
  -- send interval elapsed?
  let t := millis env s
  let s := t.2
  if subU32 t.1 s.lastSending < mulU32 SEND_INTERVAL_MIN 1000 then
    let s := serialPrintln "TIME NOT ELAPSED" s
    blink BLINK_TIME_NOT_ELAPSED s
  else
    -- read ADC
    let r := readAverage env s
    let adc := r.1
    let s := r.2
    -- reduce noise
    if abs (wrapInt (adc - s.lastAdc)) < ADC_DELTA then
      let s := serialPrintln "DELTA NOT REACHED" s
      blink BLINK_DELTA_NOT_REACHED s
    else
      let s := { s with lastAdc := adc }
      -- map to out
      let m := mapToOut adc s
      let out := m.1
      let s := m.2
      -- value changed?
      if out = s.lastOut then
        let s := serialPrintln "NOT CHANGED" s
        blink BLINK_NOT_CHANGED s
      else
        -- send
        setOut env out s

/-! ## Notions used to state the properties -/

/-- The reading lies in the valid window `[ADC_MIN, ADC_MAX]`. -/
def inRange (x : Int) : Prop := ADC_MIN ≤ x ∧ x ≤ ADC_MAX

instance (x : Int) : Decidable (inRange x) := by
  unfold inRange
  infer_instance

/-- A result of the sampler: a valid reading or the sentinel. -/
def isReading (x : Int) : Prop := x = ADC_INVALID ∨ inRange x

instance (x : Int) : Decidable (isReading x) := by
  unfold isReading
  infer_instance

/-- Reference definition of the output mapping, in the words of the
specification and on unbounded integers: the sentinel goes to 255, any other
reading to `OUT_MIN + (reading - ADC_MIN) * (OUT_MAX - OUT_MIN) / (ADC_MAX - ADC_MIN)`
with truncating division. -/
def mapToOut_ref (reading : Int) : Int :=
  if reading = ADC_INVALID then 255
  else OUT_MIN + Int.tdiv ((reading - ADC_MIN) * (OUT_MAX - OUT_MIN)) (ADC_MAX - ADC_MIN)

/-- The events by which the transmitter acts on the bus and the trigger line. -/
def isTransmitEvent : Event → Bool
  | .writePORTB _ => true
  | .writePORTD _ => true
  | .digitalWrite pin _ => pin == TRIGGER_SEND_PIN
  | _ => false

/-- The transmitter's events of a trace, in order. -/
def transmitEvents (tr : List Event) : List Event := tr.filter isTransmitEvent

/-- How often the LED was switched on in a trace. -/
def ledOnCount (tr : List Event) : Nat := tr.count (.digitalWrite LED_BUILTIN true)

/-- The clock value that the next call of `millis` returns. -/
def nextMillis (env : Env) (s : State) : Nat := env.millisIn s.millisReads % 2 ^ 32

/-- The time since the last sending as the next loop iteration sees it:
`t - lastSending` in unsigned 32-bit arithmetic, `t` the clock value read. -/
def elapsedMs (env : Env) (s : State) : Int :=
  ((nextMillis env s : Int) - (s.lastSending : Int)) % 2 ^ 32

/-- The state of a loop iteration after the measurement pause and the reading
of the clock. -/
def afterClock (env : Env) (s : State) : State :=
  (millis env (serialPrintln "---" (delay MEASUREMENT_PAUSE s))).2

/-- The reading that a loop iteration takes once the interval guard has passed,
with the state after the sampling. -/
def sampled (env : Env) (s : State) : Int × State :=
  readAverage env (afterClock env s)

/-- The part of `loop` that follows a passed delta guard (main.cpp lines
249-262): the reading is stored in `lastAdc` and mapped, then the
output-changed guard either refuses with not-changed or lets `setOut` send. -/
def loopAfterDelta (env : Env) (adc : Int) (s : State) : State :=
  let s := { s with lastAdc := adc }
  let m := mapToOut adc s
  let out := m.1
  let s := m.2
  if out = s.lastOut then
    let s := serialPrintln "NOT CHANGED" s
    blink BLINK_NOT_CHANGED s
  else
    setOut env out s

/-- The output code of the reading of a loop iteration whose delta guard has
passed, with the state after the mapping (`lastAdc` already updated). -/
def mapped (env : Env) (s : State) : Nat × State :=
  mapToOut (sampled env s).1 { (sampled env s).2 with lastAdc := (sampled env s).1 }

/-- Sum of the `n` samples of the stream that start at index `start`. -/
def sampleSum (env : Env) : Nat → Nat → Int
  | _, 0 => 0
  | start, n + 1 => env.analogIn start + sampleSum env (start + 1) n

/-- A state to run examples from: everything zero, nothing traced. -/
def State.zero : State :=
  { lastSending := 0, lastAdc := 0, lastOut := 0, PORTB := 0, PORTD := 0,
    DDRB := 0, DDRD := 0, triggerLine := false, led := false,
    analogReads := 0, millisReads := 0, trace := [] }

/-- The inputs that deliver the listed samples (then `dflt`) and the listed
clock values (then 0). -/
def Env.ofLists (samples : List Int) (dflt : Int) (clock : List Nat) : Env :=
  { analogIn := fun k => samples.getD k dflt,
    millisIn := fun k => clock.getD k 0 }

/-- The blink pattern in the words of the specification: `times` blinks, each
one LED on, 125 ms, LED off, with 125 ms between two blinks and nothing after
the last one. -/
def blinkPattern : Nat → List Event
  | 0 => []
  | 1 => [.digitalWrite LED_BUILTIN true, .delay 125, .digitalWrite LED_BUILTIN false]
  | n + 2 =>
    [.digitalWrite LED_BUILTIN true, .delay 125, .digitalWrite LED_BUILTIN false, .delay 125]
      ++ blinkPattern (n + 1)

/-- The time spent in the delays of a trace [ms]. -/
def delayTotal : List Event → Nat
  | [] => 0
  | .delay ms :: tr => ms + delayTotal tr
  | _ :: tr => delayTotal tr

/-- The state of `setup` right before the first measurement (main.cpp lines
196-221): pins and ports configured, start message written, startup pause
over. -/
def setupPrelude (env : Env) (s : State) : State :=
  let s := pinMode LED_BUILTIN OUTPUT s
  let s := analogReference INTERNAL s
  let s := (analogRead env LOOP_CURRENT_PIN s).2
  let s := setDDRB ((s.DDRB ||| 0b00011111) % 256) s
  let s := setDDRD ((s.DDRD ||| 0b11100000) % 256) s
  let s := pinMode TRIGGER_SEND_PIN OUTPUT s
  let s := digitalWrite TRIGGER_SEND_PIN false s
  let s := serialBegin BAUD_RATE s
  let s := serialPrintln "*** HM-CURRENTLOOP ***" s
  let s := serialPrint "ADC_MIN: " s
  let s := serialPrintlnInt ADC_MIN s
  let s := serialPrint "ADC_MAX: " s
  let s := serialPrintlnInt ADC_MAX s
  let s := delay STARTUP_PAUSE s
  serialPrintln "---" s

/-- The first reading, taken by `setup`, with the state after the sampling. -/
def setupSampled (env : Env) (s : State) : Int × State :=
  readAverage env (setupPrelude env s)

/-- The output code of the first reading, with the state after the mapping
(`lastAdc` already set). -/
def setupMapped (env : Env) (s : State) : Nat × State :=
  mapToOut (setupSampled env s).1 { (setupSampled env s).2 with lastAdc := (setupSampled env s).1 }

/-- The interval guard of a loop iteration refuses (reason time-not-elapsed). -/
def timeNotElapsed (env : Env) (s : State) : Prop := elapsedMs env s < 60000

/-- The interval guard passes and the delta guard refuses (reason
delta-not-reached). -/
def deltaNotReached (env : Env) (s : State) : Prop :=
  ¬ timeNotElapsed env s ∧ abs (wrapInt ((sampled env s).1 - s.lastAdc)) < ADC_DELTA

/-- The interval and delta guards pass and the output-changed guard refuses
(reason not-changed). -/
def notChanged (env : Env) (s : State) : Prop :=
  ¬ timeNotElapsed env s ∧ ¬ abs (wrapInt ((sampled env s).1 - s.lastAdc)) < ADC_DELTA ∧
    (mapped env s).1 = s.lastOut

/-- The loop iteration that starts in `s` refuses, for one of the three reasons. -/
def refuses (env : Env) (s : State) : Prop :=
  timeNotElapsed env s ∨ deltaNotReached env s ∨ notChanged env s

/-- The loop iteration that starts in `s` passes all three guards and sends. -/
def sends (env : Env) (s : State) : Prop :=
  ¬ timeNotElapsed env s ∧ ¬ abs (wrapInt ((sampled env s).1 - s.lastAdc)) < ADC_DELTA ∧
    (mapped env s).1 ≠ s.lastOut

instance (env : Env) (s : State) : Decidable (timeNotElapsed env s) := by
  unfold timeNotElapsed
  infer_instance

instance (env : Env) (s : State) : Decidable (deltaNotReached env s) := by
  unfold deltaNotReached
  infer_instance

instance (env : Env) (s : State) : Decidable (notChanged env s) := by
  unfold notChanged
  infer_instance

instance (env : Env) (s : State) : Decidable (refuses env s) := by
  unfold refuses
  infer_instance

instance (env : Env) (s : State) : Decidable (sends env s) := by
  unfold sends
  infer_instance

/-- The state after `setup` and `n` iterations of `loop`. -/
def run (env : Env) (s0 : State) : Nat → State
  | 0 => setup env s0
  | n + 1 => loop env (run env s0 n)

/-- The number of the clock read that gave `lastSending` its value, after
`setup` and `n` iterations: `setup` reads the clock once, for its sending; an
iteration that sends reads the clock a second time, for `lastSending`; an
iteration that refuses leaves `lastSending` alone. -/
def sendRead (env : Env) (s0 : State) : Nat → Nat
  | 0 => s0.millisReads
  | n + 1 =>
    if refuses env (run env s0 n) then sendRead env s0 n
    else (run env s0 n).millisReads + 1

/-- The inputs that deliver the listed samples (then `dflt`) and a clock that
advances by `step` ms from one reading to the next. -/
def Env.ticking (samples : List Int) (dflt : Int) (step : Nat) : Env :=
  { analogIn := fun k => samples.getD k dflt,
    millisIn := fun k => step * (k + 1) }

/-! ## Basic facts -/

theorem ADC_MIN_eq : ADC_MIN = 87 := by decide

theorem ADC_MAX_eq : ADC_MAX = 962 := by decide

theorem ADC_INVALID_eq : ADC_INVALID = -32768 := by decide

theorem wrapLong_eq_self {x : Int} (h1 : -2147483648 ≤ x) (h2 : x < 2147483648) :
    wrapLong x = x := by
  unfold wrapLong
  omega

theorem wrapInt_eq_self {x : Int} (h1 : -32768 ≤ x) (h2 : x < 32768) :
    wrapInt x = x := by
  unfold wrapInt
  omega

/-- On the valid window the library mapping is the exact quotient. -/
theorem map_inRange {r : Int} (h : inRange r) :
    map r ADC_MIN ADC_MAX OUT_MIN OUT_MAX = (r - 87) * 254 / 875 := by
  obtain ⟨h1, h2⟩ := h
  rw [ADC_MIN_eq] at h1
  rw [ADC_MAX_eq] at h2
  have e1 : wrapLong (r - 87) = r - 87 := wrapLong_eq_self (by omega) (by omega)
  have e3 : wrapLong ((r - 87) * 254) = (r - 87) * 254 :=
    wrapLong_eq_self (by omega) (by omega)
  have e4 : Int.tdiv ((r - 87) * 254) 875 = (r - 87) * 254 / 875 :=
    Int.tdiv_eq_ediv (by omega) (by omega)
  have e5 : wrapLong ((r - 87) * 254 / 875) = (r - 87) * 254 / 875 :=
    wrapLong_eq_self (by omega) (by omega)
  have c1 : wrapLong 254 = 254 := by decide
  have c2 : wrapLong 875 = 875 := by decide
  simp only [map, ADC_MIN_eq, ADC_MAX_eq, OUT_MIN, OUT_MAX]
  norm_num
  rw [c1, c2, e1, e3, e4, e5, e5]

theorem mapToOut_fst (adcValue : Int) (s : State) :
    (mapToOut adcValue s).1 =
      if adcValue = ADC_INVALID then OUT_INVALID
      else toU8 (map adcValue ADC_MIN ADC_MAX OUT_MIN OUT_MAX) := by
  unfold mapToOut
  split <;> rfl

theorem inRange_ne_invalid {r : Int} (h : inRange r) : r ≠ ADC_INVALID := by
  obtain ⟨h1, _⟩ := h
  rw [ADC_MIN_eq] at h1
  rw [ADC_INVALID_eq]
  omega

/-- The output code of a valid reading. -/
theorem mapToOut_inRange {r : Int} (h : inRange r) (s : State) :
    ((mapToOut r s).1 : Int) = (r - 87) * 254 / 875 := by
  have hr := h
  obtain ⟨h1, h2⟩ := h
  rw [ADC_MIN_eq] at h1
  rw [ADC_MAX_eq] at h2
  rw [mapToOut_fst, if_neg (inRange_ne_invalid hr), map_inRange hr]
  unfold toU8
  omega

/-! ## The output mapper -/

/-- C1: `mapToOut` equals its reference definition.  `ADC_MIN = 87` and
`ADC_MAX = 962`, so the divisor `ADC_MAX - ADC_MIN` is not zero;
`mapToOut(ADC_INVALID) = 255`; and for every reading `r` with
`ADC_MIN <= r <= ADC_MAX` the returned code is
`OUT_MIN + (r - ADC_MIN) * (OUT_MAX - OUT_MIN) / (ADC_MAX - ADC_MIN)`, that is
`(r - 87) * 254 / 875` with truncating division, and the `long` result of the
library mapping is already the `uint8_t` that is returned (nothing is lost in
the conversion). -/
theorem mapToOut_eq_reference (s : State) :
    ADC_MIN = 87 ∧ ADC_MAX = 962 ∧ ADC_MAX - ADC_MIN ≠ 0 ∧
    (mapToOut ADC_INVALID s).1 = 255 ∧
    ∀ r : Int, ADC_MIN ≤ r → r ≤ ADC_MAX →
      ((mapToOut r s).1 : Int) = mapToOut_ref r ∧
      mapToOut_ref r = Int.tdiv ((r - 87) * 254) 875 ∧
      map r ADC_MIN ADC_MAX OUT_MIN OUT_MAX = ((mapToOut r s).1 : Int) := by
  refine ⟨ADC_MIN_eq, ADC_MAX_eq, by decide, ?_, ?_⟩
  · rw [mapToOut_fst, if_pos rfl]
    rfl
  · intro r h1 h2
    have hr : inRange r := ⟨h1, h2⟩
    rw [ADC_MIN_eq] at h1
    rw [ADC_MAX_eq] at h2
    have e4 : Int.tdiv ((r - 87) * 254) 875 = (r - 87) * 254 / 875 :=
      Int.tdiv_eq_ediv (by omega) (by omega)
    have href : mapToOut_ref r = Int.tdiv ((r - 87) * 254) 875 := by
      unfold mapToOut_ref
      rw [if_neg (inRange_ne_invalid hr)]
      simp only [ADC_MIN_eq, ADC_MAX_eq, OUT_MIN, OUT_MAX]
      norm_num
    refine ⟨?_, href, ?_⟩
    · rw [href, e4]
      exact mapToOut_inRange hr s
    · rw [map_inRange hr, mapToOut_inRange hr s]

/-- The reading 500 is mapped by the reference formula:
`(500 - 87) * 254 / 875 = 119`. -/
theorem mapToOut_eq_reference_witness :
    ((mapToOut 500 State.zero).1 : Int) = mapToOut_ref 500 ∧
    mapToOut_ref 500 = Int.tdiv ((500 - 87) * 254) 875 ∧
    map 500 ADC_MIN ADC_MAX OUT_MIN OUT_MAX = ((mapToOut 500 State.zero).1 : Int) :=
  (mapToOut_eq_reference State.zero).2.2.2.2 500 (by decide) (by decide)

/-- C2: on the valid window `mapToOut` is monotonic non-decreasing, it sends
`ADC_MIN` to 0 and `ADC_MAX` to 254, and so every valid reading gets a code in
`[0, 254]`, never the reserved code 255. -/
theorem mapToOut_monotone (s t : State) :
    (mapToOut ADC_MIN s).1 = 0 ∧ (mapToOut ADC_MAX s).1 = 254 ∧
    (∀ a b : Int, ADC_MIN ≤ a → a ≤ b → b ≤ ADC_MAX →
      (mapToOut a s).1 ≤ (mapToOut b t).1) ∧
    (∀ r : Int, ADC_MIN ≤ r → r ≤ ADC_MAX →
      (mapToOut r s).1 ≤ 254 ∧ (mapToOut r s).1 ≠ OUT_INVALID) := by
  refine ⟨?_, ?_, ?_, ?_⟩
  · have h := mapToOut_inRange (r := ADC_MIN) (by decide) s
    rw [ADC_MIN_eq] at h
    rw [ADC_MIN_eq]
    omega
  · have h := mapToOut_inRange (r := ADC_MAX) (by decide) s
    rw [ADC_MAX_eq] at h
    rw [ADC_MAX_eq]
    omega
  · intro a b h1 h2 h3
    have ha := mapToOut_inRange (r := a) ⟨h1, by omega⟩ s
    have hb := mapToOut_inRange (r := b) ⟨by omega, h3⟩ t
    rw [ADC_MIN_eq] at h1
    rw [ADC_MAX_eq] at h3
    omega
  · intro r h1 h2
    have hr := mapToOut_inRange (r := r) ⟨h1, h2⟩ s
    rw [ADC_MIN_eq] at h1
    rw [ADC_MAX_eq] at h2
    unfold OUT_INVALID
    omega

/-- The readings 100 and 500 are ordered like their codes 3 and 119, and 500
does not get the reserved code. -/
theorem mapToOut_monotone_witness :
    (mapToOut 100 State.zero).1 ≤ (mapToOut 500 State.zero).1 ∧
    ((mapToOut 500 State.zero).1 ≤ 254 ∧ (mapToOut 500 State.zero).1 ≠ OUT_INVALID) :=
  ⟨(mapToOut_monotone State.zero State.zero).2.2.1 100 500
      (by decide) (by decide) (by decide),
    (mapToOut_monotone State.zero State.zero).2.2.2 500 (by decide) (by decide)⟩

/-- C3, as stated, fails: the valid readings 87 and 88 are different and both
get the code 0, so `mapToOut` is not injective on `[ADC_MIN, ADC_MAX]`. -/
theorem mapToOut_not_injective :
    inRange 87 ∧ inRange 88 ∧ (87 : Int) ≠ 88 ∧
    (mapToOut 87 State.zero).1 = (mapToOut 88 State.zero).1 := by
  decide

/-- C3, amended: `mapToOut` maps the readings in `[ADC_MIN, ADC_MAX]` onto the
whole interval of consecutive codes `[0, 254]`: every valid reading gets a
code of at most 254, and every code `c` in `0..254` is the code of some valid
reading.  (Injectivity is dropped.) -/
theorem mapToOut_onto_codes (s : State) :
    (∀ r : Int, inRange r → (mapToOut r s).1 ≤ 254) ∧
    (∀ c : Nat, c ≤ 254 → ∃ r : Int, inRange r ∧ (mapToOut r s).1 = c) := by
  constructor
  · intro r hr
    have h := mapToOut_inRange hr s
    obtain ⟨h1, h2⟩ := hr
    rw [ADC_MIN_eq] at h1
    rw [ADC_MAX_eq] at h2
    omega
  · intro c hc
    have hr : inRange (87 + ((c : Int) * 875 + 253) / 254) := by
      unfold inRange
      rw [ADC_MIN_eq, ADC_MAX_eq]
      omega
    refine ⟨87 + ((c : Int) * 875 + 253) / 254, hr, ?_⟩
    have h := mapToOut_inRange hr s
    omega

/-- The code 100 is reached, and the reading 500 gets a code of at most 254. -/
theorem mapToOut_onto_codes_witness :
    (mapToOut 500 State.zero).1 ≤ 254 ∧
    ∃ r : Int, inRange r ∧ (mapToOut r State.zero).1 = 100 :=
  ⟨(mapToOut_onto_codes State.zero).1 500 (by decide),
    (mapToOut_onto_codes State.zero).2 100 (by decide)⟩

/-! ## The sampler -/

/-- The sampler touches the sample counter and the trace only, and what it
adds to the trace is neither a transmitter event nor an LED event. -/
theorem readAverageLoop_frame (env : Env) (cnt : Nat) :
    ∀ (avg : Int) (s : State), ∃ (n : Nat) (tr : List Event),
      (readAverageLoop env cnt avg s).2 =
        { s with analogReads := s.analogReads + n, trace := s.trace ++ tr } ∧
      transmitEvents tr = [] ∧ ledOnCount tr = 0 := by
  induction cnt with
  | zero =>
    intro avg s
    refine ⟨0, [.serialPrint "AVG: ",
      .serialPrintlnInt (wrapInt (Int.tdiv avg NUM_SAMPLES))], ?_, ?_, ?_⟩
    · simp [readAverageLoop, serialPrint, serialPrintlnInt, emit]
    · simp [transmitEvents, isTransmitEvent]
    · simp [ledOnCount]
  | succ cnt ih =>
    intro avg s
    by_cases hbad : env.analogIn s.analogReads < ADC_MIN ∨ env.analogIn s.analogReads > ADC_MAX
    · refine ⟨1, [.analogRead LOOP_CURRENT_PIN (env.analogIn s.analogReads),
        .serialPrint "ADC: ", .serialPrintlnInt (env.analogIn s.analogReads),
        .serialPrintln "OUT OF RANGE"], ?_, ?_, ?_⟩
      · simp [readAverageLoop, analogRead, serialPrint, serialPrintlnInt, serialPrintln,
          emit, hbad]
      · simp [transmitEvents, isTransmitEvent]
      · simp [ledOnCount]
    · obtain ⟨n, tr, h, h1, h2⟩ := ih (wrapInt (avg + env.analogIn s.analogReads))
        (delay SAMPLE_PAUSE (serialPrintlnInt (env.analogIn s.analogReads)
          (serialPrint "ADC: " (analogRead env LOOP_CURRENT_PIN s).2)))
      refine ⟨1 + n, [.analogRead LOOP_CURRENT_PIN (env.analogIn s.analogReads),
        .serialPrint "ADC: ", .serialPrintlnInt (env.analogIn s.analogReads),
        .delay SAMPLE_PAUSE] ++ tr, ?_, ?_, ?_⟩
      · rw [readAverageLoop]
        simp only [analogRead, hbad, if_false]
        simp only [analogRead] at h
        rw [h]
        simp [serialPrint, serialPrintlnInt, delay, emit, Nat.add_assoc]
      · simp [transmitEvents, isTransmitEvent] at h1 ⊢
        exact h1
      · simp [ledOnCount] at h2 ⊢
        exact h2

/-- If the sample at offset `k < cnt` is the first one outside the window, the
loop returns the sentinel after reading `k + 1` samples. -/
theorem readAverageLoop_invalid (env : Env) (cnt : Nat) :
    ∀ (avg : Int) (s : State) (k : Nat), k < cnt →
      (∀ j, j < k → inRange (env.analogIn (s.analogReads + j))) →
      ¬ inRange (env.analogIn (s.analogReads + k)) →
      (readAverageLoop env cnt avg s).1 = ADC_INVALID ∧
      (readAverageLoop env cnt avg s).2.analogReads = s.analogReads + (k + 1) := by
  induction cnt with
  | zero =>
    intro avg s k hk
    omega
  | succ cnt ih =>
    intro avg s k hk hgood hbad
    cases k with
    | zero =>
      have hb : env.analogIn s.analogReads < ADC_MIN ∨ env.analogIn s.analogReads > ADC_MAX := by
        simp only [inRange, Nat.add_zero] at hbad
        omega
      simp [readAverageLoop, analogRead, serialPrint, serialPrintlnInt, serialPrintln,
        emit, hb]
    | succ k =>
      have hg : ¬ (env.analogIn s.analogReads < ADC_MIN ∨ env.analogIn s.analogReads > ADC_MAX) := by
        have h0 := hgood 0 (by omega)
        simp only [inRange, Nat.add_zero] at h0
        omega
      have h := ih (wrapInt (avg + env.analogIn s.analogReads))
        (delay SAMPLE_PAUSE (serialPrintlnInt (env.analogIn s.analogReads)
          (serialPrint "ADC: " (analogRead env LOOP_CURRENT_PIN s).2))) k (by omega)
        (by
          intro j hj
          have := hgood (j + 1) (by omega)
          simpa [analogRead, serialPrint, serialPrintlnInt, delay, emit,
            Nat.add_assoc, Nat.add_comm 1 j] using this)
        (by
          simpa [analogRead, serialPrint, serialPrintlnInt, delay, emit,
            Nat.add_assoc, Nat.add_comm 1 k] using hbad)
      rw [readAverageLoop]
      simp only [analogRead, hg, if_false]
      simp only [analogRead] at h
      rw [h.1, h.2]
      simp [serialPrint, serialPrintlnInt, delay, emit]
      omega

/-- If the next `cnt` samples all lie in the window and the running sum has
room for them, the loop reads exactly `cnt` samples and returns the truncated
quotient of the exact sum, which stays between `87 * cnt` and `962 * cnt`
above the start value. -/
theorem readAverageLoop_valid (env : Env) (cnt : Nat) :
    ∀ (avg : Int) (s : State),
      (∀ j, j < cnt → inRange (env.analogIn (s.analogReads + j))) →
      0 ≤ avg → avg + 962 * cnt ≤ 32767 →
      (readAverageLoop env cnt avg s).1 =
        (avg + sampleSum env s.analogReads cnt) / 8 ∧
      (readAverageLoop env cnt avg s).2.analogReads = s.analogReads + cnt ∧
      87 * (cnt : Int) ≤ sampleSum env s.analogReads cnt ∧
      sampleSum env s.analogReads cnt ≤ 962 * (cnt : Int) := by
  induction cnt with
  | zero =>
    intro avg s _ h0 h1
    have e : Int.tdiv avg 8 = avg / 8 := Int.tdiv_eq_ediv h0 (by omega)
    simp only [readAverageLoop, sampleSum, NUM_SAMPLES, serialPrint, serialPrintlnInt, emit]
    norm_num
    rw [e]
    exact wrapInt_eq_self (by omega) (by omega)
  | succ cnt ih =>
    intro avg s hgood h0 h1
    have hin := hgood 0 (by omega)
    simp only [inRange, Nat.add_zero, ADC_MIN_eq, ADC_MAX_eq] at hin
    have hg : ¬ (env.analogIn s.analogReads < ADC_MIN ∨ env.analogIn s.analogReads > ADC_MAX) := by
      rw [ADC_MIN_eq, ADC_MAX_eq]
      omega
    have hw : wrapInt (avg + env.analogIn s.analogReads) = avg + env.analogIn s.analogReads :=
      wrapInt_eq_self (by omega) (by push_cast at h1; omega)
    have h := ih (wrapInt (avg + env.analogIn s.analogReads))
      (delay SAMPLE_PAUSE (serialPrintlnInt (env.analogIn s.analogReads)
        (serialPrint "ADC: " (analogRead env LOOP_CURRENT_PIN s).2)))
      (by
        intro j hj
        have := hgood (j + 1) (by omega)
        simpa [analogRead, serialPrint, serialPrintlnInt, delay, emit,
          Nat.add_assoc, Nat.add_comm 1 j] using this)
      (by rw [hw]; omega)
      (by rw [hw]; push_cast at h1; omega)
    rw [readAverageLoop]
    simp only [analogRead, hg, if_false]
    simp only [analogRead, serialPrint, serialPrintlnInt, delay, emit] at h
    simp only [serialPrint, serialPrintlnInt, delay, emit]
    obtain ⟨e1, e2, e3, e4⟩ := h
    rw [e1, e2, hw]
    simp only [sampleSum]
    push_cast
    refine ⟨by rw [Int.add_assoc], by omega, by omega, by omega⟩

/-- C4: if any of the first `NUM_SAMPLES = 8` samples lies outside
`[ADC_MIN, ADC_MAX]`, `readAverage` returns `ADC_INVALID`, and it stops at the
first such sample: with `k` the index of the first sample outside the window,
exactly `k + 1` samples have been read. -/
theorem readAverage_invalid (env : Env) (s : State)
    (h : ∃ k, k < NUM_SAMPLES ∧ ¬ inRange (env.analogIn (s.analogReads + k))) :
    (readAverage env s).1 = ADC_INVALID ∧
    ∃ k, k < NUM_SAMPLES ∧ ¬ inRange (env.analogIn (s.analogReads + k)) ∧
      (∀ j, j < k → inRange (env.analogIn (s.analogReads + j))) ∧
      (readAverage env s).2.analogReads = s.analogReads + (k + 1) := by
  have hk := Nat.find_spec h
  have hmin : ∀ j, j < Nat.find h → inRange (env.analogIn (s.analogReads + j)) := by
    intro j hj
    have hn := Nat.find_min h hj
    by_contra hc
    exact hn ⟨by omega, hc⟩
  have hres := readAverageLoop_invalid env NUM_SAMPLES 0 s (Nat.find h) hk.1 hmin hk.2
  exact ⟨hres.1, Nat.find h, hk.1, hk.2, hmin, hres.2⟩

/-- Seven samples in the window followed by one outside of it give
`ADC_INVALID`, not an average of the seven. -/
theorem readAverage_invalid_witness :
    (readAverage (Env.ofLists [100, 102, 98, 101, 99, 100, 103, 1000] 100 []) State.zero).1
      = ADC_INVALID :=
  (readAverage_invalid (Env.ofLists [100, 102, 98, 101, 99, 100, 103, 1000] 100 [])
    State.zero ⟨7, by decide, by decide⟩).1

/-- C5: if the next 8 samples all lie in `[ADC_MIN, ADC_MAX]`, `readAverage`
reads exactly 8 samples and returns their sum divided by 8 with truncating
division; every running sum lies between 0 and `8 * 962 = 7696`, inside the
range of the 16-bit `int`. -/
theorem readAverage_valid (env : Env) (s : State)
    (h : ∀ j, j < NUM_SAMPLES → inRange (env.analogIn (s.analogReads + j))) :
    (readAverage env s).1 =
      Int.tdiv (env.analogIn s.analogReads + env.analogIn (s.analogReads + 1) +
        env.analogIn (s.analogReads + 2) + env.analogIn (s.analogReads + 3) +
        env.analogIn (s.analogReads + 4) + env.analogIn (s.analogReads + 5) +
        env.analogIn (s.analogReads + 6) + env.analogIn (s.analogReads + 7)) 8 ∧
    (readAverage env s).2.analogReads = s.analogReads + 8 ∧
    ∀ m, m ≤ NUM_SAMPLES →
      0 ≤ sampleSum env s.analogReads m ∧ sampleSum env s.analogReads m ≤ 7696 ∧
      wrapInt (sampleSum env s.analogReads m) = sampleSum env s.analogReads m := by
  have hbound : ∀ m, m ≤ NUM_SAMPLES →
      0 ≤ sampleSum env s.analogReads m ∧ sampleSum env s.analogReads m ≤ 7696 := by
    intro m hm
    unfold NUM_SAMPLES at hm
    have hv := readAverageLoop_valid env m 0 s
      (fun j hj => h j (by unfold NUM_SAMPLES; omega)) (by omega) (by omega)
    omega
  have hv := readAverageLoop_valid env NUM_SAMPLES 0 s h (by omega) (by decide)
  have hsum : sampleSum env s.analogReads 8 =
      env.analogIn s.analogReads + env.analogIn (s.analogReads + 1) +
        env.analogIn (s.analogReads + 2) + env.analogIn (s.analogReads + 3) +
        env.analogIn (s.analogReads + 4) + env.analogIn (s.analogReads + 5) +
        env.analogIn (s.analogReads + 6) + env.analogIn (s.analogReads + 7) := by
    simp only [sampleSum, Nat.add_assoc]
    norm_num
    omega
  have h8 := hbound 8 (by decide)
  refine ⟨?_, hv.2.1, ?_⟩
  · unfold readAverage
    rw [hv.1, ← hsum, Int.tdiv_eq_ediv h8.1 (by omega)]
    simp [NUM_SAMPLES]
  · intro m hm
    have hb := hbound m hm
    exact ⟨hb.1, hb.2, wrapInt_eq_self (by omega) (by omega)⟩

/-- The samples 100, 102, 98, 101, 99, 100, 103, 97 give the average 100. -/
theorem readAverage_valid_witness :
    (readAverage (Env.ofLists [100, 102, 98, 101, 99, 100, 103, 97] 0 []) State.zero).1 = 100 ∧
    (readAverage (Env.ofLists [100, 102, 98, 101, 99, 100, 103, 97] 0 []) State.zero).2.analogReads
      = 8 :=
  ⟨(readAverage_valid (Env.ofLists [100, 102, 98, 101, 99, 100, 103, 97] 0 []) State.zero
      (by decide)).1,
    (readAverage_valid (Env.ofLists [100, 102, 98, 101, 99, 100, 103, 97] 0 []) State.zero
      (by decide)).2.1⟩

/-- C6: the result of `readAverage` is `ADC_INVALID` or lies in
`[ADC_MIN, ADC_MAX]`; `ADC_INVALID` lies outside that window; and the result is
`ADC_INVALID` if and only if one of the samples read by the call was outside
the window. -/
theorem readAverage_result (env : Env) (s : State) :
    ((readAverage env s).1 = ADC_INVALID ∨ inRange (readAverage env s).1) ∧
    ¬ inRange ADC_INVALID ∧
    ((readAverage env s).1 = ADC_INVALID ↔
      ∃ j, s.analogReads ≤ j ∧ j < (readAverage env s).2.analogReads ∧
        ¬ inRange (env.analogIn j)) := by
  by_cases h : ∃ k, k < NUM_SAMPLES ∧ ¬ inRange (env.analogIn (s.analogReads + k))
  · obtain ⟨hinv, k, hk, hbad, hreads⟩ :
        (readAverage env s).1 = ADC_INVALID ∧
        ∃ k, k < NUM_SAMPLES ∧ ¬ inRange (env.analogIn (s.analogReads + k)) ∧
          (readAverage env s).2.analogReads = s.analogReads + (k + 1) := by
      have hk := Nat.find_spec h
      have hres := readAverageLoop_invalid env NUM_SAMPLES 0 s (Nat.find h) hk.1
        (fun j hj => by
          by_contra hc
          exact Nat.find_min h hj ⟨by omega, hc⟩) hk.2
      exact ⟨hres.1, Nat.find h, hk.1, hk.2, hres.2⟩
    refine ⟨Or.inl hinv, by decide, ?_⟩
    constructor
    · intro _
      exact ⟨s.analogReads + k, by omega, by omega, hbad⟩
    · intro _
      exact hinv
  · have hall : ∀ j, j < NUM_SAMPLES → inRange (env.analogIn (s.analogReads + j)) := by
      intro j hj
      by_contra hc
      exact h ⟨j, hj, hc⟩
    have hv := readAverageLoop_valid env NUM_SAMPLES 0 s hall (by omega) (by decide)
    have hin : inRange (readAverage env s).1 := by
      unfold readAverage inRange
      rw [hv.1, ADC_MIN_eq, ADC_MAX_eq]
      have h3 := hv.2.2.1
      have h4 := hv.2.2.2
      simp only [NUM_SAMPLES] at h3 h4 ⊢
      omega
    refine ⟨Or.inr hin, by decide, ?_⟩
    constructor
    · intro he
      exact absurd he (inRange_ne_invalid hin)
    · rintro ⟨j, hj1, hj2, hbad⟩
      have hr : (readAverage env s).2.analogReads = s.analogReads + NUM_SAMPLES := hv.2.1
      have := hall (j - s.analogReads) (by omega)
      rw [show s.analogReads + (j - s.analogReads) = j by omega] at this
      exact absurd this hbad

/-! ## The transmission gate -/

theorem subU32_eq (a b : Nat) : (subU32 a b : Int) = ((a : Int) - (b : Int)) % 2 ^ 32 := by
  unfold subU32
  norm_num
  omega

theorem interval_guard_iff (env : Env) (s : State) :
    subU32 (millis env (serialPrintln "---" (delay MEASUREMENT_PAUSE s))).1
        (millis env (serialPrintln "---" (delay MEASUREMENT_PAUSE s))).2.lastSending
      < mulU32 SEND_INTERVAL_MIN 1000 ↔ elapsedMs env s < 60000 := by
  have h := subU32_eq (env.millisIn s.millisReads % 2 ^ 32) s.lastSending
  simp only [millis, serialPrintln, delay, emit, elapsedMs, nextMillis, mulU32,
    SEND_INTERVAL_MIN]
  norm_num at h ⊢
  omega

/-- C7: if the clock value `t` read by a loop iteration satisfies
`t - lastSending < 60000` in unsigned 32-bit arithmetic, the iteration refuses
with time-not-elapsed whatever the analog input holds: it pauses, reads the
clock, logs the reason and blinks once; no sample is read, nothing is
transmitted, and no variable of the transmission state changes. -/
theorem loop_time_not_elapsed (env : Env) (s : State) (h : elapsedMs env s < 60000) :
    loop env s =
      { s with
        millisReads := s.millisReads + 1
        led := false
        trace := s.trace ++ [.delay 5000, .serialPrintln "---",
          .millis (nextMillis env s), .serialPrintln "TIME NOT ELAPSED",
          .digitalWrite LED_BUILTIN true, .delay 125, .digitalWrite LED_BUILTIN false] } ∧
    (loop env s).analogReads = s.analogReads ∧
    transmitEvents (loop env s).trace = transmitEvents s.trace ∧
    ledOnCount (loop env s).trace = ledOnCount s.trace + BLINK_TIME_NOT_ELAPSED := by
  have hg := (interval_guard_iff env s).mpr h
  have e : loop env s =
      { s with
        millisReads := s.millisReads + 1
        led := false
        trace := s.trace ++ [.delay 5000, .serialPrintln "---",
          .millis (nextMillis env s), .serialPrintln "TIME NOT ELAPSED",
          .digitalWrite LED_BUILTIN true, .delay 125, .digitalWrite LED_BUILTIN false] } := by
    unfold loop
    simp only [hg, if_true]
    simp [blink, BLINK_TIME_NOT_ELAPSED, digitalWrite, millis, serialPrintln, delay, emit,
      nextMillis, MEASUREMENT_PAUSE, LED_BUILTIN, TRIGGER_SEND_PIN]
  refine ⟨e, ?_, ?_, ?_⟩
  · rw [e]
  · rw [e]
    simp [transmitEvents, isTransmitEvent, LED_BUILTIN, TRIGGER_SEND_PIN]
  · rw [e]
    simp [ledOnCount, List.count_append, BLINK_TIME_NOT_ELAPSED]

/-- Last sending at 5000 ms, clock at 30000 ms: the iteration refuses, although
the analog input holds a new valid value. -/
theorem loop_time_not_elapsed_witness :
    (loop (Env.ofLists [] 500 [30000]) { State.zero with lastSending := 5000 }).analogReads = 0 ∧
    ledOnCount (loop (Env.ofLists [] 500 [30000])
      { State.zero with lastSending := 5000 }).trace = 1 :=
  ⟨(loop_time_not_elapsed (Env.ofLists [] 500 [30000])
      { State.zero with lastSending := 5000 } (by decide)).2.1,
    (loop_time_not_elapsed (Env.ofLists [] 500 [30000])
      { State.zero with lastSending := 5000 } (by decide)).2.2.2⟩

/-- C8: the interval guard is correct across the wraparound of the 32-bit
millisecond counter: with the last sending at `T` (any `unsigned long`, so any
`T < 2^32`) and the true elapsed time `d < 2^32`, the clock reads
`(T + d) mod 2^32`, and the guard condition `now - T < SEND_INTERVAL_MIN * 1000`
of `loop` holds exactly when `d < 60000`. -/
theorem interval_guard_wraparound (T d : Nat) (hd : d < 2 ^ 32) :
    subU32 ((T + d) % 2 ^ 32) T < mulU32 SEND_INTERVAL_MIN 1000 ↔ d < 60000 := by
  unfold subU32 mulU32 SEND_INTERVAL_MIN
  norm_num at hd ⊢
  omega

/-- Last sending 1000 ms before the counter wraps, 5000 ms later the counter
reads 4000 and the guard still refuses. -/
theorem interval_guard_wraparound_witness :
    subU32 4000 4294966296 < mulU32 SEND_INTERVAL_MIN 1000 :=
  (interval_guard_wraparound 4294966296 5000 (by decide)).mpr (by decide)

theorem afterClock_eq (env : Env) (s : State) :
    afterClock env s =
      { s with
        millisReads := s.millisReads + 1
        trace := s.trace ++ [.delay 5000, .serialPrintln "---", .millis (nextMillis env s)] } := by
  simp [afterClock, millis, serialPrintln, delay, emit, nextMillis, MEASUREMENT_PAUSE]

/-- The state after the sampling of a loop iteration: only the two input
counters and the trace differ from the state before the iteration, and the
trace has gained neither a transmitter event nor an LED event. -/
theorem sampled_frame (env : Env) (s : State) :
    ∃ (n : Nat) (tr : List Event),
      (sampled env s).2 =
        { s with
          analogReads := s.analogReads + n
          millisReads := s.millisReads + 1
          trace := s.trace ++ tr } ∧
      transmitEvents tr = [] ∧ ledOnCount tr = 0 := by
  obtain ⟨n, tr, h, h1, h2⟩ := readAverageLoop_frame env NUM_SAMPLES 0 (afterClock env s)
  refine ⟨n, [.delay 5000, .serialPrintln "---", .millis (nextMillis env s)] ++ tr, ?_, ?_, ?_⟩
  · unfold sampled readAverage
    rw [h, afterClock_eq]
    simp
  · simp [transmitEvents, isTransmitEvent] at h1 ⊢
    exact h1
  · simp [ledOnCount] at h2 ⊢
    exact h2

/-- The sampler returns a reading: the sentinel or a value in the window. -/
theorem readAverage_isReading (env : Env) (s : State) : isReading (readAverage env s).1 := by
  by_cases h : ∃ k, k < NUM_SAMPLES ∧ ¬ inRange (env.analogIn (s.analogReads + k))
  · have hk := Nat.find_spec h
    have hres := readAverageLoop_invalid env NUM_SAMPLES 0 s (Nat.find h) hk.1
      (fun j hj => by
        by_contra hc
        exact Nat.find_min h hj ⟨by omega, hc⟩) hk.2
    exact Or.inl hres.1
  · have hall : ∀ j, j < NUM_SAMPLES → inRange (env.analogIn (s.analogReads + j)) := by
      intro j hj
      by_contra hc
      exact h ⟨j, hj, hc⟩
    have hv := readAverageLoop_valid env NUM_SAMPLES 0 s hall (by omega) (by decide)
    refine Or.inr ?_
    unfold readAverage inRange
    rw [hv.1, ADC_MIN_eq, ADC_MAX_eq]
    have h3 := hv.2.2.1
    have h4 := hv.2.2.2
    simp only [NUM_SAMPLES] at h3 h4 ⊢
    omega

/-- On readings the machine comparison of the delta guard (16-bit subtraction,
the `abs` macro) is the comparison of the true distance with 3. -/
theorem delta_guard_iff {a b : Int} (ha : isReading a) (hb : isReading b) :
    abs (wrapInt (a - b)) < ADC_DELTA ↔ Int.natAbs (a - b) < 3 := by
  unfold isReading inRange at ha hb
  rw [ADC_MIN_eq, ADC_MAX_eq, ADC_INVALID_eq] at ha hb
  unfold abs wrapInt ADC_DELTA
  split <;> omega

/-- With a passed interval guard `loop` samples and evaluates the delta guard. -/
theorem loop_of_interval_passed (env : Env) (s : State) (hint : 60000 ≤ elapsedMs env s) :
    loop env s =
      if abs (wrapInt ((sampled env s).1 - s.lastAdc)) < ADC_DELTA then
        blink BLINK_DELTA_NOT_REACHED (serialPrintln "DELTA NOT REACHED" (sampled env s).2)
      else loopAfterDelta env (sampled env s).1 (sampled env s).2 := by
  have hg : ¬ subU32 (millis env (serialPrintln "---" (delay MEASUREMENT_PAUSE s))).1
        (millis env (serialPrintln "---" (delay MEASUREMENT_PAUSE s))).2.lastSending
      < mulU32 SEND_INTERVAL_MIN 1000 := by
    rw [interval_guard_iff]
    omega
  obtain ⟨n, tr, hs, _, _⟩ := sampled_frame env s
  have hl : (sampled env s).2.lastAdc = s.lastAdc := by rw [hs]
  unfold loop
  simp only [hg, if_false]
  rw [← hl]
  rfl

/-- Explicit form of the state after `setOut`. -/
theorem setOut_eq (env : Env) (out : Nat) (s : State) :
    setOut env out s =
      { s with
        lastSending := nextMillis env s
        lastOut := out
        PORTB := ((s.PORTB &&& 0b11100000) ||| (out &&& 0b00011111)) % 256
        PORTD := ((s.PORTD &&& 0b00011111) ||| (out &&& 0b11100000)) % 256
        triggerLine := false
        led := false
        millisReads := s.millisReads + 1
        trace := s.trace ++ [
          .writePORTB (((s.PORTB &&& 0b11100000) ||| (out &&& 0b00011111)) % 256),
          .writePORTD (((s.PORTD &&& 0b00011111) ||| (out &&& 0b11100000)) % 256),
          .digitalWrite TRIGGER_SEND_PIN true, .delay 300,
          .digitalWrite TRIGGER_SEND_PIN false,
          .millis (nextMillis env s), .serialPrintln "SENT",
          .digitalWrite LED_BUILTIN true, .delay 125, .digitalWrite LED_BUILTIN false, .delay 125,
          .digitalWrite LED_BUILTIN true, .delay 125, .digitalWrite LED_BUILTIN false, .delay 125,
          .digitalWrite LED_BUILTIN true, .delay 125, .digitalWrite LED_BUILTIN false, .delay 125,
          .digitalWrite LED_BUILTIN true, .delay 125, .digitalWrite LED_BUILTIN false] } := by
  simp [setOut, blink, BLINK_SEND, setPORTB, setPORTD, digitalWrite, millis, serialPrintln,
    delay, emit, nextMillis, LED_BUILTIN, TRIGGER_SEND_PIN]

/-- The mapper adds log lines to the trace and changes nothing else. -/
theorem mapToOut_frame (adcValue : Int) (s : State) :
    ∃ tr : List Event,
      (mapToOut adcValue s).2 = { s with trace := s.trace ++ tr } ∧
      transmitEvents tr = [] ∧ ledOnCount tr = 0 := by
  by_cases h : adcValue = ADC_INVALID
  · exact ⟨[], by simp [mapToOut, h], rfl, rfl⟩
  · refine ⟨[.serialPrint "OUT: ",
      .serialPrintlnInt (map adcValue ADC_MIN ADC_MAX OUT_MIN OUT_MAX)], ?_, ?_, ?_⟩
    · simp [mapToOut, h, serialPrint, serialPrintlnInt, emit]
    · simp [transmitEvents, isTransmitEvent]
    · simp [ledOnCount]

/-- The state after the mapping of a loop iteration: `lastAdc`, the two input
counters and the trace differ from the state before the iteration, and the
trace has gained neither a transmitter event nor an LED event. -/
theorem mapped_frame (env : Env) (s : State) :
    ∃ (n : Nat) (tr : List Event),
      (mapped env s).2 =
        { s with
          lastAdc := (sampled env s).1
          analogReads := s.analogReads + n
          millisReads := s.millisReads + 1
          trace := s.trace ++ tr } ∧
      transmitEvents tr = [] ∧ ledOnCount tr = 0 := by
  obtain ⟨n, tr, h, h1, h2⟩ := sampled_frame env s
  obtain ⟨tr2, k, k1, k2⟩ := mapToOut_frame (sampled env s).1
    { (sampled env s).2 with lastAdc := (sampled env s).1 }
  refine ⟨n, tr ++ tr2, ?_, ?_, ?_⟩
  · unfold mapped
    rw [k, h]
    simp
  · simp [transmitEvents] at h1 k1 ⊢
    exact ⟨h1, k1⟩
  · simp [ledOnCount] at h2 k2 ⊢
    exact ⟨h2, k2⟩

/-- C9: in a loop iteration whose interval guard has passed, with `adc` the new
reading and `lastAdc` a stored reading: if `|adc - lastAdc| < 3` the iteration
refuses with delta-not-reached (it logs the reason and blinks twice) and
transmits nothing, the transmission state and the bus stay as they were; if
`|adc - lastAdc| >= 3` (exactly 3 included) it goes on to the output-changed
guard. -/
theorem loop_delta_guard (env : Env) (s : State)
    (hint : 60000 ≤ elapsedMs env s) (hlast : isReading s.lastAdc) :
    (Int.natAbs ((sampled env s).1 - s.lastAdc) < 3 →
      (loop env s).trace = (sampled env s).2.trace ++ [.serialPrintln "DELTA NOT REACHED",
        .digitalWrite LED_BUILTIN true, .delay 125, .digitalWrite LED_BUILTIN false, .delay 125,
        .digitalWrite LED_BUILTIN true, .delay 125, .digitalWrite LED_BUILTIN false] ∧
      ledOnCount (loop env s).trace = ledOnCount s.trace + BLINK_DELTA_NOT_REACHED ∧
      transmitEvents (loop env s).trace = transmitEvents s.trace ∧
      (loop env s).lastSending = s.lastSending ∧ (loop env s).lastOut = s.lastOut ∧
      (loop env s).PORTB = s.PORTB ∧ (loop env s).PORTD = s.PORTD ∧
      (loop env s).triggerLine = s.triggerLine) ∧
    (3 ≤ Int.natAbs ((sampled env s).1 - s.lastAdc) →
      loop env s = loopAfterDelta env (sampled env s).1 (sampled env s).2) := by
  have hiff : abs (wrapInt ((sampled env s).1 - s.lastAdc)) < ADC_DELTA ↔
      Int.natAbs ((sampled env s).1 - s.lastAdc) < 3 :=
    delta_guard_iff (readAverage_isReading env (afterClock env s)) hlast
  have hloop := loop_of_interval_passed env s hint
  constructor
  · intro hlt
    have hd : abs (wrapInt ((sampled env s).1 - s.lastAdc)) < ADC_DELTA := hiff.mpr hlt
    rw [if_pos hd] at hloop
    obtain ⟨n, tr, hs, h1, h2⟩ := sampled_frame env s
    have e : loop env s =
        { s with
          led := false
          analogReads := s.analogReads + n
          millisReads := s.millisReads + 1
          trace := s.trace ++ tr ++ [.serialPrintln "DELTA NOT REACHED",
            .digitalWrite LED_BUILTIN true, .delay 125, .digitalWrite LED_BUILTIN false,
            .delay 125,
            .digitalWrite LED_BUILTIN true, .delay 125, .digitalWrite LED_BUILTIN false] } := by
      rw [hloop, hs]
      simp [blink, BLINK_DELTA_NOT_REACHED, digitalWrite, serialPrintln, delay, emit,
        LED_BUILTIN, TRIGGER_SEND_PIN]
    rw [e, hs]
    refine ⟨rfl, ?_, ?_, rfl, rfl, rfl, rfl, rfl⟩
    · simp only [ledOnCount, List.count_append] at h2 ⊢
      rw [h2]
      simp [BLINK_DELTA_NOT_REACHED]
    · simp only [transmitEvents, List.filter_append] at h1 ⊢
      rw [h1]
      simp [isTransmitEvent, LED_BUILTIN, TRIGGER_SEND_PIN]
  · intro hge
    have hd : ¬ abs (wrapInt ((sampled env s).1 - s.lastAdc)) < ADC_DELTA := by
      rw [hiff]
      omega
    rw [if_neg hd] at hloop
    exact hloop

/-- Stored reading 100, interval elapsed: eight samples of 101 (distance 1) are
refused with two blinks and without a transmission, eight samples of 103
(distance exactly 3) go on to the output-changed guard. -/
theorem loop_delta_guard_witness :
    (ledOnCount (loop (Env.ofLists [] 101 [70000]) { State.zero with lastAdc := 100 }).trace
        = 0 + BLINK_DELTA_NOT_REACHED ∧
      transmitEvents (loop (Env.ofLists [] 101 [70000]) { State.zero with lastAdc := 100 }).trace
        = transmitEvents []) ∧
    loop (Env.ofLists [] 103 [70000]) { State.zero with lastAdc := 100 } =
      loopAfterDelta (Env.ofLists [] 103 [70000])
        (sampled (Env.ofLists [] 103 [70000]) { State.zero with lastAdc := 100 }).1
        (sampled (Env.ofLists [] 103 [70000]) { State.zero with lastAdc := 100 }).2 :=
  ⟨⟨((loop_delta_guard (Env.ofLists [] 101 [70000]) { State.zero with lastAdc := 100 }
        (by decide) (by decide)).1 (by decide)).2.1,
     ((loop_delta_guard (Env.ofLists [] 101 [70000]) { State.zero with lastAdc := 100 }
        (by decide) (by decide)).1 (by decide)).2.2.1⟩,
   (loop_delta_guard (Env.ofLists [] 103 [70000]) { State.zero with lastAdc := 100 }
      (by decide) (by decide)).2 (by decide)⟩

/-- C10: in a loop iteration whose interval and delta guards have passed, with
`out = mapToOut(adc)`: if `out = lastOut` the iteration refuses with
not-changed (it logs the reason and blinks three times), the transmitter is
not called and `lastSending`, `lastOut` and the bus stay as they were; if
`out != lastOut` the iteration ends with `setOut(out)`, which puts exactly
`out` on the bus, pulses the trigger once, stores `out` in `lastOut` and
blinks four times. -/
theorem loop_output_guard (env : Env) (s : State)
    (hint : 60000 ≤ elapsedMs env s)
    (hdelta : ¬ abs (wrapInt ((sampled env s).1 - s.lastAdc)) < ADC_DELTA) :
    ((mapped env s).1 = s.lastOut →
      (loop env s).trace = (mapped env s).2.trace ++ [.serialPrintln "NOT CHANGED",
        .digitalWrite LED_BUILTIN true, .delay 125, .digitalWrite LED_BUILTIN false, .delay 125,
        .digitalWrite LED_BUILTIN true, .delay 125, .digitalWrite LED_BUILTIN false, .delay 125,
        .digitalWrite LED_BUILTIN true, .delay 125, .digitalWrite LED_BUILTIN false] ∧
      ledOnCount (loop env s).trace = ledOnCount s.trace + BLINK_NOT_CHANGED ∧
      transmitEvents (loop env s).trace = transmitEvents s.trace ∧
      (loop env s).lastSending = s.lastSending ∧ (loop env s).lastOut = s.lastOut ∧
      (loop env s).PORTB = s.PORTB ∧ (loop env s).PORTD = s.PORTD ∧
      (loop env s).triggerLine = s.triggerLine) ∧
    ((mapped env s).1 ≠ s.lastOut →
      loop env s = setOut env (mapped env s).1 (mapped env s).2 ∧
      (loop env s).lastOut = (mapped env s).1 ∧
      transmitEvents (loop env s).trace = transmitEvents s.trace ++ [
        .writePORTB (((s.PORTB &&& 0b11100000) ||| ((mapped env s).1 &&& 0b00011111)) % 256),
        .writePORTD (((s.PORTD &&& 0b00011111) ||| ((mapped env s).1 &&& 0b11100000)) % 256),
        .digitalWrite TRIGGER_SEND_PIN true, .digitalWrite TRIGGER_SEND_PIN false] ∧
      ledOnCount (loop env s).trace = ledOnCount s.trace + BLINK_SEND) := by
  have hloop := loop_of_interval_passed env s hint
  rw [if_neg hdelta] at hloop
  obtain ⟨n, tr, hm, h1, h2⟩ := mapped_frame env s
  have hlo : (mapped env s).2.lastOut = s.lastOut := by rw [hm]
  have hloop2 : loop env s =
      if (mapped env s).1 = s.lastOut then
        blink BLINK_NOT_CHANGED (serialPrintln "NOT CHANGED" (mapped env s).2)
      else setOut env (mapped env s).1 (mapped env s).2 := by
    rw [hloop, ← hlo]
    rfl
  constructor
  · intro heq
    rw [if_pos heq] at hloop2
    have e : loop env s =
        { s with
          lastAdc := (sampled env s).1
          led := false
          analogReads := s.analogReads + n
          millisReads := s.millisReads + 1
          trace := s.trace ++ tr ++ [.serialPrintln "NOT CHANGED",
            .digitalWrite LED_BUILTIN true, .delay 125, .digitalWrite LED_BUILTIN false,
            .delay 125,
            .digitalWrite LED_BUILTIN true, .delay 125, .digitalWrite LED_BUILTIN false,
            .delay 125,
            .digitalWrite LED_BUILTIN true, .delay 125, .digitalWrite LED_BUILTIN false] } := by
      rw [hloop2, hm]
      simp [blink, BLINK_NOT_CHANGED, digitalWrite, serialPrintln, delay, emit,
        LED_BUILTIN, TRIGGER_SEND_PIN]
    rw [e, hm]
    refine ⟨rfl, ?_, ?_, rfl, rfl, rfl, rfl, rfl⟩
    · simp only [ledOnCount, List.count_append] at h2 ⊢
      rw [h2]
      simp [BLINK_NOT_CHANGED]
    · simp only [transmitEvents, List.filter_append] at h1 ⊢
      rw [h1]
      simp [isTransmitEvent, LED_BUILTIN, TRIGGER_SEND_PIN]
  · intro hne
    rw [if_neg hne] at hloop2
    refine ⟨hloop2, ?_, ?_, ?_⟩
    · rw [hloop2, setOut_eq]
    · rw [hloop2, setOut_eq, hm]
      simp only [transmitEvents, List.filter_append] at h1 ⊢
      rw [h1]
      simp [isTransmitEvent, LED_BUILTIN, TRIGGER_SEND_PIN]
    · rw [hloop2, setOut_eq, hm]
      simp only [ledOnCount, List.count_append] at h2 ⊢
      rw [h2]
      simp [BLINK_SEND, LED_BUILTIN, TRIGGER_SEND_PIN]

/-- Stored reading 87 with code 0 sent, interval elapsed: eight samples of 90
pass the delta guard, map to 0 again and are refused with three blinks; eight
samples of 500 map to 119 and are sent. -/
theorem loop_output_guard_witness :
    (ledOnCount (loop (Env.ofLists [] 90 [70000]) { State.zero with lastAdc := 87 }).trace
        = 0 + BLINK_NOT_CHANGED ∧
      transmitEvents (loop (Env.ofLists [] 90 [70000]) { State.zero with lastAdc := 87 }).trace
        = transmitEvents []) ∧
    (loop (Env.ofLists [] 500 [70000, 70300]) { State.zero with lastAdc := 87 }).lastOut
      = (mapped (Env.ofLists [] 500 [70000, 70300]) { State.zero with lastAdc := 87 }).1 :=
  ⟨⟨((loop_output_guard (Env.ofLists [] 90 [70000]) { State.zero with lastAdc := 87 }
        (by decide) (by decide)).1 (by decide)).2.1,
     ((loop_output_guard (Env.ofLists [] 90 [70000]) { State.zero with lastAdc := 87 }
        (by decide) (by decide)).1 (by decide)).2.2.1⟩,
   ((loop_output_guard (Env.ofLists [] 500 [70000, 70300]) { State.zero with lastAdc := 87 }
      (by decide) (by decide)).2 (by decide)).2.1⟩

/-! ## The output transmitter -/

theorem testBit_31 (i : Nat) : Nat.testBit 31 i = decide (i < 5) := by
  have h := Nat.testBit_two_pow_sub_one 5 i
  simpa using h

theorem testBit_224 (i : Nat) : Nat.testBit 224 i = (decide (5 ≤ i) && decide (i < 8)) := by
  by_cases h : i < 8
  · interval_cases i <;> decide
  · have hf : Nat.testBit 224 i = false :=
      Nat.testBit_lt_two_pow (lt_of_lt_of_le (by decide : 224 < 2 ^ 8)
        (Nat.pow_le_pow_right (by decide) (by omega)))
    rw [hf]
    simp [h]

theorem testBit_of_lt_256 {o i : Nat} (h : o < 256) (hi : 8 ≤ i) : Nat.testBit o i = false :=
  Nat.testBit_lt_two_pow (lt_of_lt_of_le (by omega : o < 2 ^ 8)
    (Nat.pow_le_pow_right (by decide) hi))

/-- The low five bits of the value written to `PORTB` are those of `out`. -/
theorem portB_low (x o : Nat) : ((x &&& 224) ||| (o &&& 31)) % 256 &&& 31 = o &&& 31 := by
  apply Nat.eq_of_testBit_eq
  intro i
  rw [show (256 : Nat) = 2 ^ 8 by norm_num]
  simp only [Nat.testBit_and, Nat.testBit_or, Nat.testBit_mod_two_pow, testBit_31, testBit_224]
  by_cases h5 : i < 5
  · have h8 : i < 8 := by omega
    simp [h5, h8]
  · simp [h5]

/-- The high three bits of the value written to `PORTB` are those it had. -/
theorem portB_high (x o : Nat) : ((x &&& 224) ||| (o &&& 31)) % 256 &&& 224 = x &&& 224 := by
  apply Nat.eq_of_testBit_eq
  intro i
  rw [show (256 : Nat) = 2 ^ 8 by norm_num]
  simp only [Nat.testBit_and, Nat.testBit_or, Nat.testBit_mod_two_pow, testBit_31, testBit_224]
  by_cases h5 : i < 5
  · have h5' : ¬ 5 ≤ i := by omega
    simp [h5, h5']
  · by_cases h8 : i < 8
    · simp [h5, h8]
    · simp [h5, h8]

/-- The low five bits of the value written to `PORTD` are those it had. -/
theorem portD_low (x o : Nat) : ((x &&& 31) ||| (o &&& 224)) % 256 &&& 31 = x &&& 31 := by
  apply Nat.eq_of_testBit_eq
  intro i
  rw [show (256 : Nat) = 2 ^ 8 by norm_num]
  simp only [Nat.testBit_and, Nat.testBit_or, Nat.testBit_mod_two_pow, testBit_31, testBit_224]
  by_cases h5 : i < 5
  · have h8 : i < 8 := by omega
    have h5' : ¬ 5 ≤ i := by omega
    simp [h5, h8, h5']
  · simp [h5]

/-- The high three bits of the value written to `PORTD` are those of `out`. -/
theorem portD_high (x o : Nat) : ((x &&& 31) ||| (o &&& 224)) % 256 &&& 224 = o &&& 224 := by
  apply Nat.eq_of_testBit_eq
  intro i
  rw [show (256 : Nat) = 2 ^ 8 by norm_num]
  simp only [Nat.testBit_and, Nat.testBit_or, Nat.testBit_mod_two_pow, testBit_31, testBit_224]
  by_cases h5 : i < 5
  · have h5' : ¬ 5 ≤ i := by omega
    simp [h5, h5']
  · by_cases h8 : i < 8
    · simp [h5, h8]
    · simp [h5, h8]

/-- An 8-bit code is the union of its low five and its high three bits. -/
theorem bus_join {o : Nat} (h : o < 256) : (o &&& 31) ||| (o &&& 224) = o := by
  apply Nat.eq_of_testBit_eq
  intro i
  simp only [Nat.testBit_and, Nat.testBit_or, testBit_31, testBit_224]
  by_cases h5 : i < 5
  · simp [h5]
  · by_cases h8 : i < 8
    · have h5' : 5 ≤ i := by omega
      simp [h5, h8, h5']
    · simp [h5, h8]
      exact testBit_of_lt_256 h (by omega)

/-- C11: for every code `out` in `0..255` and every prior content of `PORTB`
and `PORTD`, after `setOut(out)` the bus holds the code,
`(PORTB & 0b00011111) | (PORTD & 0b11100000) = out`; the events of the call
are, in this order, the write of `PORTB`, the write of `PORTD`, trigger high,
300 ms, trigger low, the reading of the clock, the log line and four blinks,
so the trigger goes high only after both port writes and is low at the end;
`lastSending` is the clock value read after the pulse and `lastOut = out`. -/
theorem setOut_transmits (env : Env) (out : Nat) (s : State) (hout : out < 256) :
    ((setOut env out s).PORTB &&& 0b00011111) ||| ((setOut env out s).PORTD &&& 0b11100000)
      = out ∧
    (setOut env out s).trace = s.trace ++ [
      .writePORTB (setOut env out s).PORTB, .writePORTD (setOut env out s).PORTD,
      .digitalWrite TRIGGER_SEND_PIN true, .delay 300, .digitalWrite TRIGGER_SEND_PIN false,
      .millis (nextMillis env s), .serialPrintln "SENT",
      .digitalWrite LED_BUILTIN true, .delay 125, .digitalWrite LED_BUILTIN false, .delay 125,
      .digitalWrite LED_BUILTIN true, .delay 125, .digitalWrite LED_BUILTIN false, .delay 125,
      .digitalWrite LED_BUILTIN true, .delay 125, .digitalWrite LED_BUILTIN false, .delay 125,
      .digitalWrite LED_BUILTIN true, .delay 125, .digitalWrite LED_BUILTIN false] ∧
    (setOut env out s).triggerLine = false ∧
    (setOut env out s).lastSending = nextMillis env s ∧
    (setOut env out s).lastOut = out := by
  rw [setOut_eq]
  refine ⟨?_, rfl, rfl, rfl, rfl⟩
  show ((s.PORTB &&& 224 ||| out &&& 31) % 256 &&& 31) |||
      ((s.PORTD &&& 31 ||| out &&& 224) % 256 &&& 224) = out
  rw [portB_low, portD_high]
  exact bus_join hout

/-- The code 165 sent with all bits of both ports set before: the bus reads
165, the trigger is low again and `lastOut` is 165. -/
theorem setOut_transmits_witness :
    ((setOut (Env.ofLists [] 0 [7000]) 165 { State.zero with PORTB := 255, PORTD := 255 }).PORTB
        &&& 0b00011111) |||
      ((setOut (Env.ofLists [] 0 [7000]) 165 { State.zero with PORTB := 255, PORTD := 255 }).PORTD
        &&& 0b11100000) = 165 ∧
    (setOut (Env.ofLists [] 0 [7000]) 165
      { State.zero with PORTB := 255, PORTD := 255 }).lastSending = 7000 :=
  ⟨(setOut_transmits (Env.ofLists [] 0 [7000]) 165
      { State.zero with PORTB := 255, PORTD := 255 } (by decide)).1,
    (setOut_transmits (Env.ofLists [] 0 [7000]) 165
      { State.zero with PORTB := 255, PORTD := 255 } (by decide)).2.2.2.1⟩

/-- C12: `setOut` leaves the unrelated port bits as they were: for every `out`
and every prior `PORTB` and `PORTD`, the upper three bits of `PORTB` (mask
`0b11100000`) and the lower five bits of `PORTD` (mask `0b00011111`) have the
same values after `setOut(out)` as before, while the low five bits of `PORTB`
become those of `out` and the high three bits of `PORTD` become those of
`out`. -/
theorem setOut_preserves_other_bits (env : Env) (out : Nat) (s : State) :
    (setOut env out s).PORTB &&& 0b11100000 = s.PORTB &&& 0b11100000 ∧
    (setOut env out s).PORTD &&& 0b00011111 = s.PORTD &&& 0b00011111 ∧
    (setOut env out s).PORTB &&& 0b00011111 = out &&& 0b00011111 ∧
    (setOut env out s).PORTD &&& 0b11100000 = out &&& 0b11100000 := by
  rw [setOut_eq]
  exact ⟨portB_high s.PORTB out, portD_low s.PORTD out, portB_low s.PORTB out,
    portD_high s.PORTD out⟩

/-! ## The diagnostic indicator -/

/-- Explicit form of the state after `blink`. -/
theorem blink_eq (times : Nat) :
    ∀ s : State, blink times s =
      { s with
        led := if times = 0 then s.led else false
        trace := s.trace ++ blinkPattern times } := by
  induction times with
  | zero =>
    intro s
    simp [blink, blinkPattern]
  | succ n ih =>
    intro s
    rw [blink, ih]
    cases n with
    | zero =>
      simp [blinkPattern, digitalWrite, delay, emit, LED_BUILTIN, TRIGGER_SEND_PIN]
    | succ m =>
      simp [blinkPattern, digitalWrite, delay, emit, LED_BUILTIN, TRIGGER_SEND_PIN]

theorem blinkPattern_ledOnCount (times : Nat) : ledOnCount (blinkPattern times) = times := by
  induction times with
  | zero => rfl
  | succ n ih =>
    cases n with
    | zero => decide
    | succ m =>
      simp only [ledOnCount, blinkPattern, List.count_append] at ih ⊢
      rw [ih]
      simp [LED_BUILTIN]
      omega

theorem delayTotal_append_blinkGap (tr : List Event) :
    delayTotal ([.digitalWrite LED_BUILTIN true, .delay 125, .digitalWrite LED_BUILTIN false,
      .delay 125] ++ tr) = 250 + delayTotal tr := by
  simp [delayTotal]
  omega

theorem blinkPattern_delayTotal (times : Nat) :
    delayTotal (blinkPattern times) = (2 * times - 1) * 125 := by
  induction times with
  | zero => rfl
  | succ n ih =>
    cases n with
    | zero => rfl
    | succ m =>
      rw [blinkPattern, delayTotal_append_blinkGap, ih]
      omega

theorem blinkPattern_getLast (times : Nat) (h : 1 ≤ times) :
    (blinkPattern times).getLast? = some (.digitalWrite LED_BUILTIN false) := by
  induction times with
  | zero => omega
  | succ n ih =>
    cases n with
    | zero => rfl
    | succ m =>
      have hm := ih (by omega)
      rw [blinkPattern, List.getLast?_append, hm]
      rfl

/-- C17, as stated, fails for `times = 0`: `blink(0)` does not touch the LED,
so a LED that is on stays on and is not left off. -/
theorem blink_zero_keeps_led :
    (blink 0 { State.zero with led := true }).led = true := by
  decide

/-- C17, amended: for every `times`, `blink(times)` returns, and what it adds
to the trace is the blink pattern: the LED is switched on exactly `times`
times, each time for 125 ms, with 125 ms between two blinks and no delay after
the last one, so the delays add up to `(2 * times - 1) * 125` ms for
`times >= 1` and to nothing for `times = 0`.  For `times >= 1` the last event
switches the LED off and the LED is left off; `blink(0)` changes nothing at
all.  The four reasons use the counts 1, 2, 3 and 4, and `blink` changes none
of `lastSending`, `lastAdc`, `lastOut`. -/
theorem blink_pattern (times : Nat) (s : State) :
    (blink times s).trace = s.trace ++ blinkPattern times ∧
    ledOnCount (blinkPattern times) = times ∧
    delayTotal (blinkPattern times) = (2 * times - 1) * 125 ∧
    (1 ≤ times →
      (blinkPattern times).getLast? = some (.digitalWrite LED_BUILTIN false) ∧
      (blink times s).led = false) ∧
    (times = 0 → blink times s = s) ∧
    (BLINK_TIME_NOT_ELAPSED = 1 ∧ BLINK_DELTA_NOT_REACHED = 2 ∧ BLINK_NOT_CHANGED = 3 ∧
      BLINK_SEND = 4) ∧
    (blink times s).lastSending = s.lastSending ∧
    (blink times s).lastAdc = s.lastAdc ∧
    (blink times s).lastOut = s.lastOut := by
  rw [blink_eq]
  refine ⟨rfl, blinkPattern_ledOnCount times, blinkPattern_delayTotal times, ?_, ?_,
    ⟨rfl, rfl, rfl, rfl⟩, rfl, rfl, rfl⟩
  · intro h
    refine ⟨blinkPattern_getLast times h, ?_⟩
    have h0 : times ≠ 0 := by omega
    simp [h0]
  · intro h
    subst h
    simp [blinkPattern]

/-- Three blinks with the LED on before: the LED ends off, was switched on
three times and the delays take `5 * 125` ms; zero blinks change nothing. -/
theorem blink_pattern_witness :
    (blink 3 { State.zero with led := true }).led = false ∧
    ledOnCount (blinkPattern 3) = 3 ∧
    delayTotal (blinkPattern 3) = (2 * 3 - 1) * 125 ∧
    blink 0 { State.zero with led := true } = { State.zero with led := true } :=
  ⟨((blink_pattern 3 { State.zero with led := true }).2.2.2.1 (by decide)).2,
    (blink_pattern 3 { State.zero with led := true }).2.1,
    (blink_pattern 3 { State.zero with led := true }).2.2.1,
    (blink_pattern 0 { State.zero with led := true }).2.2.2.2.1 rfl⟩

/-! ## Startup -/

/-- The output code depends on the reading only, not on the state. -/
theorem mapToOut_fst_state (adcValue : Int) (s t : State) :
    (mapToOut adcValue s).1 = (mapToOut adcValue t).1 := by
  rw [mapToOut_fst, mapToOut_fst]

theorem setup_eq (env : Env) (s : State) :
    setup env s = setOut env (setupMapped env s).1 (setupMapped env s).2 := rfl

/-- The state of `setup` after the mapping of the first reading: the clock has
not been read, and the only transmitter event so far is the initialisation of
the trigger line. -/
theorem setupMapped_frame (env : Env) (s : State) :
    ∃ (n : Nat) (tr : List Event),
      (setupMapped env s).2 =
        { s with
          lastAdc := (setupSampled env s).1
          DDRB := (s.DDRB ||| 0b00011111) % 256
          DDRD := (s.DDRD ||| 0b11100000) % 256
          triggerLine := false
          analogReads := s.analogReads + n
          trace := s.trace ++ tr } ∧
      transmitEvents tr = [.digitalWrite TRIGGER_SEND_PIN false] ∧ ledOnCount tr = 0 := by
  obtain ⟨n, tr, h, h1, h2⟩ := readAverageLoop_frame env NUM_SAMPLES 0 (setupPrelude env s)
  obtain ⟨tr2, k, k1, k2⟩ := mapToOut_frame (setupSampled env s).1
    { (setupSampled env s).2 with lastAdc := (setupSampled env s).1 }
  have hs : (setupSampled env s).2 =
      { setupPrelude env s with
        analogReads := (setupPrelude env s).analogReads + n
        trace := (setupPrelude env s).trace ++ tr } := h
  refine ⟨1 + n, [.pinMode LED_BUILTIN OUTPUT, .analogReference INTERNAL,
    .analogRead LOOP_CURRENT_PIN (env.analogIn s.analogReads),
    .writeDDRB ((s.DDRB ||| 0b00011111) % 256), .writeDDRD ((s.DDRD ||| 0b11100000) % 256),
    .pinMode TRIGGER_SEND_PIN OUTPUT, .digitalWrite TRIGGER_SEND_PIN false,
    .serialBegin BAUD_RATE, .serialPrintln "*** HM-CURRENTLOOP ***",
    .serialPrint "ADC_MIN: ", .serialPrintlnInt ADC_MIN,
    .serialPrint "ADC_MAX: ", .serialPrintlnInt ADC_MAX,
    .delay STARTUP_PAUSE, .serialPrintln "---"] ++ tr ++ tr2, ?_, ?_, ?_⟩
  · unfold setupMapped
    rw [k, hs]
    simp [setupPrelude, pinMode, analogReference, analogRead, setDDRB, setDDRD, digitalWrite,
      serialBegin, serialPrintln, serialPrint, serialPrintlnInt, delay, emit,
      TRIGGER_SEND_PIN, Nat.add_assoc]
  · simp only [transmitEvents, List.filter_append] at h1 k1 ⊢
    rw [h1, k1]
    simp [isTransmitEvent, TRIGGER_SEND_PIN]
  · simp only [ledOnCount, List.count_append] at h2 k2 ⊢
    rw [h2, k2]
    simp [LED_BUILTIN, TRIGGER_SEND_PIN]

/-- C13: startup transmits the first reading unconditionally.  For every
initial state and input, with `r` the first result of the sampler (a valid
average or `ADC_INVALID`), `setup` ends with the call `setOut(mapToOut(r))`;
no guard is evaluated (the clock is read once, by `setOut`); the transmitter
events are the initialisation of the trigger line, the two port writes and one
trigger pulse, followed by four blinks; afterwards `lastAdc = r`,
`lastOut = mapToOut(r)` (255 when `r` is `ADC_INVALID`) and `lastSending` is
the clock value read at the send. -/
theorem setup_sends_first_reading (env : Env) (s : State) :
    isReading (setupSampled env s).1 ∧
    setup env s = setOut env (setupMapped env s).1 (setupMapped env s).2 ∧
    (setupMapped env s).1 = (mapToOut (setupSampled env s).1 s).1 ∧
    (setup env s).lastAdc = (setupSampled env s).1 ∧
    (setup env s).lastOut = (mapToOut (setupSampled env s).1 s).1 ∧
    ((setupSampled env s).1 = ADC_INVALID → (setup env s).lastOut = 255) ∧
    (setup env s).lastSending = nextMillis env s ∧
    (setup env s).millisReads = s.millisReads + 1 ∧
    transmitEvents (setup env s).trace = transmitEvents s.trace ++ [
      .digitalWrite TRIGGER_SEND_PIN false,
      .writePORTB (((s.PORTB &&& 0b11100000) ||| ((setupMapped env s).1 &&& 0b00011111)) % 256),
      .writePORTD (((s.PORTD &&& 0b00011111) ||| ((setupMapped env s).1 &&& 0b11100000)) % 256),
      .digitalWrite TRIGGER_SEND_PIN true, .digitalWrite TRIGGER_SEND_PIN false] ∧
    ledOnCount (setup env s).trace = ledOnCount s.trace + BLINK_SEND := by
  obtain ⟨n, tr, hm, h1, h2⟩ := setupMapped_frame env s
  have hout : (setupMapped env s).1 = (mapToOut (setupSampled env s).1 s).1 :=
    mapToOut_fst_state _ _ _
  have hlo : (setup env s).lastOut = (mapToOut (setupSampled env s).1 s).1 := by
    rw [setup_eq, setOut_eq, ← hout]
  refine ⟨readAverage_isReading env (setupPrelude env s), setup_eq env s, hout, ?_, hlo, ?_,
    ?_, ?_, ?_, ?_⟩
  · rw [setup_eq, setOut_eq, hm]
  · intro hinv
    rw [hlo, mapToOut_fst, if_pos hinv]
    rfl
  · rw [setup_eq, setOut_eq, hm]
    rfl
  · rw [setup_eq, setOut_eq, hm]
  · rw [setup_eq, setOut_eq, hm]
    simp only [transmitEvents, List.filter_append] at h1 ⊢
    rw [h1]
    simp [isTransmitEvent, LED_BUILTIN, TRIGGER_SEND_PIN]
  · rw [setup_eq, setOut_eq, hm]
    simp only [ledOnCount, List.count_append] at h2 ⊢
    rw [h2]
    simp [BLINK_SEND, LED_BUILTIN, TRIGGER_SEND_PIN]

/-- A first burst with a sample outside the window: the first reading is
`ADC_INVALID` and startup sends the code 255. -/
theorem setup_sends_first_reading_witness :
    (setupSampled (Env.ofLists [0, 100, 5] 100 [4500]) State.zero).1 = ADC_INVALID ∧
    (setup (Env.ofLists [0, 100, 5] 100 [4500]) State.zero).lastOut = 255 :=
  ⟨by decide,
    (setup_sends_first_reading (Env.ofLists [0, 100, 5] 100 [4500]) State.zero).2.2.2.2.2.1
      (by decide)⟩

/-! ## The four outcomes of a loop iteration -/

theorem refuses_or_sends (env : Env) (s : State) : refuses env s ∨ sends env s := by
  unfold refuses sends deltaNotReached notChanged
  by_cases h1 : timeNotElapsed env s
  · exact Or.inl (Or.inl h1)
  · by_cases h2 : abs (wrapInt ((sampled env s).1 - s.lastAdc)) < ADC_DELTA
    · exact Or.inl (Or.inr (Or.inl ⟨h1, h2⟩))
    · by_cases h3 : (mapped env s).1 = s.lastOut
      · exact Or.inl (Or.inr (Or.inr ⟨h1, h2, h3⟩))
      · exact Or.inr ⟨h1, h2, h3⟩

theorem not_refuses_iff_sends (env : Env) (s : State) : ¬ refuses env s ↔ sends env s := by
  unfold refuses sends deltaNotReached notChanged
  constructor
  · intro h
    refine ⟨fun h1 => h (Or.inl h1), fun h2 => ?_, fun h3 => ?_⟩
    · exact h (Or.inr (Or.inl ⟨fun h1 => h (Or.inl h1), h2⟩))
    · by_cases h2 : abs (wrapInt ((sampled env s).1 - s.lastAdc)) < ADC_DELTA
      · exact h (Or.inr (Or.inl ⟨fun h1 => h (Or.inl h1), h2⟩))
      · exact h (Or.inr (Or.inr ⟨fun h1 => h (Or.inl h1), h2, h3⟩))
  · rintro ⟨h1, h2, h3⟩ (h | h | h)
    · exact h1 h
    · exact h2 h.2
    · exact h3 h.2.2

/-- Outcome time-not-elapsed: only the clock counter, the LED and the trace
differ; one blink, no transmitter event. -/
theorem loop_eq_of_timeNotElapsed (env : Env) (s : State) (h : timeNotElapsed env s) :
    ∃ (n : Nat) (tr : List Event),
      loop env s =
        { s with
          led := false
          analogReads := s.analogReads + n
          millisReads := s.millisReads + 1
          trace := s.trace ++ tr } ∧
      n = 0 ∧ transmitEvents tr = [] ∧ ledOnCount tr = BLINK_TIME_NOT_ELAPSED := by
  have hg := (interval_guard_iff env s).mpr h
  refine ⟨0, [.delay 5000, .serialPrintln "---",
    .millis (nextMillis env s), .serialPrintln "TIME NOT ELAPSED",
    .digitalWrite LED_BUILTIN true, .delay 125, .digitalWrite LED_BUILTIN false], ?_, rfl, ?_, ?_⟩
  · unfold loop
    simp only [hg, if_true]
    simp [blink, BLINK_TIME_NOT_ELAPSED, digitalWrite, millis, serialPrintln, delay, emit,
      nextMillis, MEASUREMENT_PAUSE, LED_BUILTIN, TRIGGER_SEND_PIN]
  · simp [transmitEvents, isTransmitEvent, LED_BUILTIN, TRIGGER_SEND_PIN]
  · simp [ledOnCount, BLINK_TIME_NOT_ELAPSED]

/-- Outcome delta-not-reached: only the input counters, the LED and the trace
differ; two blinks, no transmitter event. -/
theorem loop_eq_of_deltaNotReached (env : Env) (s : State) (h : deltaNotReached env s) :
    ∃ (n : Nat) (tr : List Event),
      loop env s =
        { s with
          led := false
          analogReads := s.analogReads + n
          millisReads := s.millisReads + 1
          trace := s.trace ++ tr } ∧
      transmitEvents tr = [] ∧ ledOnCount tr = BLINK_DELTA_NOT_REACHED := by
  obtain ⟨h1, h2⟩ := h
  have hloop := loop_of_interval_passed env s (by unfold timeNotElapsed at h1; omega)
  rw [if_pos h2] at hloop
  obtain ⟨n, tr, hs, k1, k2⟩ := sampled_frame env s
  refine ⟨n, tr ++ [.serialPrintln "DELTA NOT REACHED",
    .digitalWrite LED_BUILTIN true, .delay 125, .digitalWrite LED_BUILTIN false, .delay 125,
    .digitalWrite LED_BUILTIN true, .delay 125, .digitalWrite LED_BUILTIN false], ?_, ?_, ?_⟩
  · rw [hloop, hs]
    simp [blink, BLINK_DELTA_NOT_REACHED, digitalWrite, serialPrintln, delay, emit,
      LED_BUILTIN, TRIGGER_SEND_PIN]
  · simp only [transmitEvents, List.filter_append] at k1 ⊢
    rw [k1]
    simp [isTransmitEvent, LED_BUILTIN, TRIGGER_SEND_PIN]
  · simp only [ledOnCount, List.count_append] at k2 ⊢
    rw [k2]
    simp [BLINK_DELTA_NOT_REACHED]

/-- After a passed interval and delta guard `loop` evaluates the
output-changed guard on the mapped reading. -/
theorem loop_of_delta_passed (env : Env) (s : State) (h1 : ¬ timeNotElapsed env s)
    (h2 : ¬ abs (wrapInt ((sampled env s).1 - s.lastAdc)) < ADC_DELTA) :
    loop env s =
      if (mapped env s).1 = s.lastOut then
        blink BLINK_NOT_CHANGED (serialPrintln "NOT CHANGED" (mapped env s).2)
      else setOut env (mapped env s).1 (mapped env s).2 := by
  have hloop := loop_of_interval_passed env s (by unfold timeNotElapsed at h1; omega)
  rw [if_neg h2] at hloop
  obtain ⟨n, tr, hm, _, _⟩ := mapped_frame env s
  have hlo : (mapped env s).2.lastOut = s.lastOut := by rw [hm]
  rw [hloop, ← hlo]
  rfl

/-- Outcome not-changed: `lastAdc` holds the new reading; apart from it only
the input counters, the LED and the trace differ; three blinks, no transmitter
event. -/
theorem loop_eq_of_notChanged (env : Env) (s : State) (h : notChanged env s) :
    ∃ (n : Nat) (tr : List Event),
      loop env s =
        { s with
          lastAdc := (sampled env s).1
          led := false
          analogReads := s.analogReads + n
          millisReads := s.millisReads + 1
          trace := s.trace ++ tr } ∧
      transmitEvents tr = [] ∧ ledOnCount tr = BLINK_NOT_CHANGED := by
  obtain ⟨h1, h2, h3⟩ := h
  have hloop := loop_of_delta_passed env s h1 h2
  rw [if_pos h3] at hloop
  obtain ⟨n, tr, hm, k1, k2⟩ := mapped_frame env s
  refine ⟨n, tr ++ [.serialPrintln "NOT CHANGED",
    .digitalWrite LED_BUILTIN true, .delay 125, .digitalWrite LED_BUILTIN false, .delay 125,
    .digitalWrite LED_BUILTIN true, .delay 125, .digitalWrite LED_BUILTIN false, .delay 125,
    .digitalWrite LED_BUILTIN true, .delay 125, .digitalWrite LED_BUILTIN false], ?_, ?_, ?_⟩
  · rw [hloop, hm]
    simp [blink, BLINK_NOT_CHANGED, digitalWrite, serialPrintln, delay, emit,
      LED_BUILTIN, TRIGGER_SEND_PIN]
  · simp only [transmitEvents, List.filter_append] at k1 ⊢
    rw [k1]
    simp [isTransmitEvent, LED_BUILTIN, TRIGGER_SEND_PIN]
  · simp only [ledOnCount, List.count_append] at k2 ⊢
    rw [k2]
    simp [BLINK_NOT_CHANGED]

/-- Outcome sent: the new reading and its code are stored, the code is on the
bus, the clock has been read a second time for `lastSending`; one trigger
pulse after the two port writes, four blinks. -/
theorem loop_eq_of_sends (env : Env) (s : State) (h : sends env s) :
    ∃ (n : Nat) (tr : List Event),
      loop env s =
        { s with
          lastSending := env.millisIn (s.millisReads + 1) % 2 ^ 32
          lastAdc := (sampled env s).1
          lastOut := (mapped env s).1
          PORTB := ((s.PORTB &&& 0b11100000) ||| ((mapped env s).1 &&& 0b00011111)) % 256
          PORTD := ((s.PORTD &&& 0b00011111) ||| ((mapped env s).1 &&& 0b11100000)) % 256
          triggerLine := false
          led := false
          analogReads := s.analogReads + n
          millisReads := s.millisReads + 2
          trace := s.trace ++ tr } ∧
      transmitEvents tr = [
        .writePORTB (((s.PORTB &&& 0b11100000) ||| ((mapped env s).1 &&& 0b00011111)) % 256),
        .writePORTD (((s.PORTD &&& 0b00011111) ||| ((mapped env s).1 &&& 0b11100000)) % 256),
        .digitalWrite TRIGGER_SEND_PIN true, .digitalWrite TRIGGER_SEND_PIN false] ∧
      ledOnCount tr = BLINK_SEND := by
  obtain ⟨h1, h2, h3⟩ := h
  have hloop := loop_of_delta_passed env s h1 h2
  rw [if_neg h3] at hloop
  obtain ⟨n, tr, hm, k1, k2⟩ := mapped_frame env s
  refine ⟨n, tr ++ [
    .writePORTB (((s.PORTB &&& 0b11100000) ||| ((mapped env s).1 &&& 0b00011111)) % 256),
    .writePORTD (((s.PORTD &&& 0b00011111) ||| ((mapped env s).1 &&& 0b11100000)) % 256),
    .digitalWrite TRIGGER_SEND_PIN true, .delay 300, .digitalWrite TRIGGER_SEND_PIN false,
    .millis (env.millisIn (s.millisReads + 1) % 2 ^ 32), .serialPrintln "SENT",
    .digitalWrite LED_BUILTIN true, .delay 125, .digitalWrite LED_BUILTIN false, .delay 125,
    .digitalWrite LED_BUILTIN true, .delay 125, .digitalWrite LED_BUILTIN false, .delay 125,
    .digitalWrite LED_BUILTIN true, .delay 125, .digitalWrite LED_BUILTIN false, .delay 125,
    .digitalWrite LED_BUILTIN true, .delay 125, .digitalWrite LED_BUILTIN false], ?_, ?_, ?_⟩
  · rw [hloop, setOut_eq, hm]
    simp [nextMillis]
  · simp only [transmitEvents, List.filter_append] at k1 ⊢
    rw [k1]
    simp [isTransmitEvent, LED_BUILTIN, TRIGGER_SEND_PIN]
  · simp only [ledOnCount, List.count_append] at k2 ⊢
    rw [k2]
    simp [BLINK_SEND, LED_BUILTIN, TRIGGER_SEND_PIN]

/-! ## What an iteration changes -/

/-- C15: `lastSending` and `lastOut` change only when a transmission takes
place: for every state and every loop iteration that refuses (time-not-elapsed,
delta-not-reached or not-changed), `lastSending`, `lastOut`, the output ports
`PORTB` and `PORTD` and the trigger line have the same values after the
iteration as before it, and the iteration adds no transmitter event. -/
theorem refusal_keeps_transmission_state (env : Env) (s : State) (h : refuses env s) :
    (loop env s).lastSending = s.lastSending ∧
    (loop env s).lastOut = s.lastOut ∧
    (loop env s).PORTB = s.PORTB ∧
    (loop env s).PORTD = s.PORTD ∧
    (loop env s).triggerLine = s.triggerLine ∧
    transmitEvents (loop env s).trace = transmitEvents s.trace := by
  rcases h with h | h | h
  · obtain ⟨n, tr, e, _, k1, _⟩ := loop_eq_of_timeNotElapsed env s h
    rw [e]
    refine ⟨rfl, rfl, rfl, rfl, rfl, ?_⟩
    simp only [transmitEvents, List.filter_append] at k1 ⊢
    rw [k1]
    simp
  · obtain ⟨n, tr, e, k1, _⟩ := loop_eq_of_deltaNotReached env s h
    rw [e]
    refine ⟨rfl, rfl, rfl, rfl, rfl, ?_⟩
    simp only [transmitEvents, List.filter_append] at k1 ⊢
    rw [k1]
    simp
  · obtain ⟨n, tr, e, k1, _⟩ := loop_eq_of_notChanged env s h
    rw [e]
    refine ⟨rfl, rfl, rfl, rfl, rfl, ?_⟩
    simp only [transmitEvents, List.filter_append] at k1 ⊢
    rw [k1]
    simp

/-- Last sending at 5000 ms with code 77 on the bus: an iteration at 30000 ms
refuses, and `lastSending`, `lastOut` and the ports are as before. -/
theorem refusal_keeps_transmission_state_witness :
    (loop (Env.ofLists [] 500 [30000])
      { State.zero with lastSending := 5000, lastOut := 77, PORTB := 13, PORTD := 64 }).lastSending
      = 5000 ∧
    (loop (Env.ofLists [] 500 [30000])
      { State.zero with lastSending := 5000, lastOut := 77, PORTB := 13, PORTD := 64 }).lastOut
      = 77 ∧
    (loop (Env.ofLists [] 500 [30000])
      { State.zero with lastSending := 5000, lastOut := 77, PORTB := 13, PORTD := 64 }).PORTB
      = 13 :=
  ⟨(refusal_keeps_transmission_state (Env.ofLists [] 500 [30000])
      { State.zero with lastSending := 5000, lastOut := 77, PORTB := 13, PORTD := 64 }
      (by decide)).1,
    (refusal_keeps_transmission_state (Env.ofLists [] 500 [30000])
      { State.zero with lastSending := 5000, lastOut := 77, PORTB := 13, PORTD := 64 }
      (by decide)).2.1,
    (refusal_keeps_transmission_state (Env.ofLists [] 500 [30000])
      { State.zero with lastSending := 5000, lastOut := 77, PORTB := 13, PORTD := 64 }
      (by decide)).2.2.1⟩

/-- C16: `lastAdc` follows the last reading that passed the delta guard, not
the last reading sent: in every loop iteration in which the interval and delta
guards pass, `lastAdc` is the new reading afterwards, also when the
output-changed guard then refuses with not-changed (and `lastOut` stays as it
was); in an iteration refused by the interval guard or by the delta guard
`lastAdc` is unchanged. -/
theorem lastAdc_tracks_delta_guard (env : Env) (s : State) :
    (¬ timeNotElapsed env s → ¬ abs (wrapInt ((sampled env s).1 - s.lastAdc)) < ADC_DELTA →
      (loop env s).lastAdc = (sampled env s).1) ∧
    (notChanged env s →
      (loop env s).lastAdc = (sampled env s).1 ∧ (loop env s).lastOut = s.lastOut) ∧
    (timeNotElapsed env s ∨ deltaNotReached env s → (loop env s).lastAdc = s.lastAdc) := by
  have hnc : notChanged env s →
      (loop env s).lastAdc = (sampled env s).1 ∧ (loop env s).lastOut = s.lastOut := by
    intro h
    obtain ⟨n, tr, e, _, _⟩ := loop_eq_of_notChanged env s h
    rw [e]
    exact ⟨rfl, rfl⟩
  refine ⟨?_, hnc, ?_⟩
  · intro h1 h2
    by_cases h3 : (mapped env s).1 = s.lastOut
    · exact (hnc ⟨h1, h2, h3⟩).1
    · obtain ⟨n, tr, e, _, _⟩ := loop_eq_of_sends env s ⟨h1, h2, h3⟩
      rw [e]
  · rintro (h | h)
    · obtain ⟨n, tr, e, _, _, _⟩ := loop_eq_of_timeNotElapsed env s h
      rw [e]
    · obtain ⟨n, tr, e, _, _⟩ := loop_eq_of_deltaNotReached env s h
      rw [e]

/-- The code 0 was sent for the reading 87; the new reading 90 passes the delta
guard, maps to 0 again and is not sent: afterwards `lastAdc` is 90 while
`lastOut` is still the code sent for 87.  A new reading 88 is refused by the
delta guard and leaves `lastAdc` at 87. -/
theorem lastAdc_tracks_delta_guard_witness :
    ((loop (Env.ofLists [] 90 [70000]) { State.zero with lastAdc := 87 }).lastAdc
        = (sampled (Env.ofLists [] 90 [70000]) { State.zero with lastAdc := 87 }).1 ∧
      (loop (Env.ofLists [] 90 [70000]) { State.zero with lastAdc := 87 }).lastOut = 0) ∧
    (sampled (Env.ofLists [] 90 [70000]) { State.zero with lastAdc := 87 }).1 = 90 ∧
    (loop (Env.ofLists [] 88 [70000]) { State.zero with lastAdc := 87 }).lastAdc = 87 :=
  ⟨(lastAdc_tracks_delta_guard (Env.ofLists [] 90 [70000])
      { State.zero with lastAdc := 87 }).2.1 (by decide),
    by decide,
    (lastAdc_tracks_delta_guard (Env.ofLists [] 88 [70000])
      { State.zero with lastAdc := 87 }).2.2 (Or.inr (by decide))⟩

/-! ## Executions: `setup` followed by iterations of `loop` -/

/-- The sentinel, and only the sentinel among the readings, gets the code 255;
a valid reading gets a code of at most 254. -/
theorem mapToOut_reading {r : Int} (hr : isReading r) (s : State) :
    (r = ADC_INVALID ↔ (mapToOut r s).1 = OUT_INVALID) ∧
    (r ≠ ADC_INVALID → inRange r ∧ (mapToOut r s).1 ≤ 254) := by
  rcases hr with hr | hr
  · subst hr
    refine ⟨⟨fun _ => ?_, fun _ => rfl⟩, fun h => absurd rfl h⟩
    rw [mapToOut_fst, if_pos rfl]
  · have h := mapToOut_inRange hr s
    have hne := inRange_ne_invalid hr
    have hb : (mapToOut r s).1 ≤ 254 := by
      obtain ⟨h1, h2⟩ := hr
      rw [ADC_MIN_eq] at h1
      rw [ADC_MAX_eq] at h2
      omega
    refine ⟨⟨fun he => absurd he hne, fun he => ?_⟩, fun _ => ⟨hr, hb⟩⟩
    unfold OUT_INVALID at he
    omega

/-- What holds after `setup`: `lastAdc` is a reading and `lastOut` is its code. -/
theorem setup_invariant (env : Env) (s : State) :
    isReading (setup env s).lastAdc ∧
    (setup env s).lastOut = (mapToOut (setup env s).lastAdc (setup env s)).1 := by
  obtain ⟨n, tr, hm, _, _⟩ := setupMapped_frame env s
  have hA : (setup env s).lastAdc = (setupSampled env s).1 := by
    rw [setup_eq, setOut_eq, hm]
  have hO : (setup env s).lastOut = (setupMapped env s).1 := by
    rw [setup_eq, setOut_eq]
  refine ⟨?_, ?_⟩
  · rw [hA]
    exact readAverage_isReading env (setupPrelude env s)
  · rw [hO, hA]
    exact mapToOut_fst_state _ _ _

/-- An iteration of `loop` keeps it: `lastAdc` is a reading and `lastOut` is
its code. -/
theorem loop_invariant (env : Env) (s : State)
    (h : isReading s.lastAdc ∧ s.lastOut = (mapToOut s.lastAdc s).1) :
    isReading (loop env s).lastAdc ∧
    (loop env s).lastOut = (mapToOut (loop env s).lastAdc (loop env s)).1 := by
  obtain ⟨hr, ho⟩ := h
  have hsr : isReading (sampled env s).1 := readAverage_isReading env (afterClock env s)
  have hmap : (mapped env s).1 = (mapToOut (sampled env s).1 (loop env s)).1 :=
    mapToOut_fst_state _ _ _
  rcases refuses_or_sends env s with (h | h | h) | h
  · obtain ⟨n, tr, e, _, _, _⟩ := loop_eq_of_timeNotElapsed env s h
    have hA : (loop env s).lastAdc = s.lastAdc := by rw [e]
    have hO : (loop env s).lastOut = s.lastOut := by rw [e]
    rw [hA, hO]
    exact ⟨hr, ho.trans (mapToOut_fst_state _ _ _)⟩
  · obtain ⟨n, tr, e, _, _⟩ := loop_eq_of_deltaNotReached env s h
    have hA : (loop env s).lastAdc = s.lastAdc := by rw [e]
    have hO : (loop env s).lastOut = s.lastOut := by rw [e]
    rw [hA, hO]
    exact ⟨hr, ho.trans (mapToOut_fst_state _ _ _)⟩
  · obtain ⟨n, tr, e, _, _⟩ := loop_eq_of_notChanged env s h
    have hA : (loop env s).lastAdc = (sampled env s).1 := by rw [e]
    have hO : (loop env s).lastOut = s.lastOut := by rw [e]
    rw [hA, hO]
    exact ⟨hsr, h.2.2.symm.trans hmap⟩
  · obtain ⟨n, tr, e, _, _⟩ := loop_eq_of_sends env s h
    have hA : (loop env s).lastAdc = (sampled env s).1 := by rw [e]
    have hO : (loop env s).lastOut = (mapped env s).1 := by rw [e]
    rw [hA, hO]
    exact ⟨hsr, hmap⟩

/-- In every state of an execution `lastAdc` is a reading and `lastOut` is its
code. -/
theorem run_invariant (env : Env) (s0 : State) (n : Nat) :
    isReading (run env s0 n).lastAdc ∧
    (run env s0 n).lastOut = (mapToOut (run env s0 n).lastAdc (run env s0 n)).1 := by
  induction n with
  | zero => exact setup_invariant env s0
  | succ n ih => exact loop_invariant env (run env s0 n) ih

/-- C20: sentinel consistency is an invariant of the transmission state.  In
every state reached by `setup` followed by any number of loop iterations,
`lastOut` is the code of `lastAdc`; `lastAdc = ADC_INVALID` if and only if
`lastOut = 255` (`OUT_INVALID`); and otherwise `lastAdc` lies in
`[ADC_MIN, ADC_MAX]` and `lastOut` in `[0, 254]`. -/
theorem sentinel_consistency (env : Env) (s0 : State) (n : Nat) :
    ((run env s0 n).lastAdc = ADC_INVALID ↔ (run env s0 n).lastOut = OUT_INVALID) ∧
    ((run env s0 n).lastAdc ≠ ADC_INVALID →
      inRange (run env s0 n).lastAdc ∧ (run env s0 n).lastOut ≤ 254) ∧
    (run env s0 n).lastOut = (mapToOut (run env s0 n).lastAdc (run env s0 n)).1 := by
  obtain ⟨hr, ho⟩ := run_invariant env s0 n
  have h := mapToOut_reading hr (run env s0 n)
  rw [← ho] at h
  exact ⟨h.1, h.2, ho⟩

/-- After startup with the samples 100 and one iteration that sends for the
samples 500, `lastAdc` is not the sentinel and so lies in the window, with
`lastOut` at most 254. -/
theorem sentinel_consistency_witness :
    inRange (run (Env.ofLists [0, 100, 100, 100, 100, 100, 100, 100, 100] 500
      [4500, 70000, 70300]) State.zero 1).lastAdc ∧
    (run (Env.ofLists [0, 100, 100, 100, 100, 100, 100, 100, 100] 500
      [4500, 70000, 70300]) State.zero 1).lastOut ≤ 254 :=
  (sentinel_consistency (Env.ofLists [0, 100, 100, 100, 100, 100, 100, 100, 100] 500
    [4500, 70000, 70300]) State.zero 1).2.1 (by decide)

/-- The delta guard passes whenever exactly one of the new reading and the
stored reading is the sentinel. -/
theorem delta_passes_across_sentinel {a b : Int}
    (h : (a = ADC_INVALID ∧ inRange b) ∨ (inRange a ∧ b = ADC_INVALID)) :
    ¬ abs (wrapInt (a - b)) < ADC_DELTA := by
  unfold inRange at h
  rw [ADC_MIN_eq, ADC_MAX_eq, ADC_INVALID_eq] at h
  unfold abs wrapInt ADC_DELTA
  split <;> omega

/-- C14: an out-of-range condition is reported like any other value.  In every
state reached by `setup` followed by loop iterations, for an iteration whose
interval guard passes: if `lastAdc` is a valid reading and the sampler returns
`ADC_INVALID`, the delta guard and the output-changed guard pass and the code
255 is transmitted; and if `lastAdc` is `ADC_INVALID` and the new reading is
valid, both guards pass and the code of the new reading (at most 254) is
transmitted. -/
theorem invalid_reading_is_transmitted (env : Env) (s0 : State) (n : Nat)
    (hint : ¬ timeNotElapsed env (run env s0 n)) :
    (inRange (run env s0 n).lastAdc → (sampled env (run env s0 n)).1 = ADC_INVALID →
      sends env (run env s0 n) ∧
      (loop env (run env s0 n)).lastOut = 255 ∧
      (loop env (run env s0 n)).lastAdc = ADC_INVALID ∧
      transmitEvents (loop env (run env s0 n)).trace =
        transmitEvents (run env s0 n).trace ++ [
          .writePORTB ((((run env s0 n).PORTB &&& 0b11100000) ||| (255 &&& 0b00011111)) % 256),
          .writePORTD ((((run env s0 n).PORTD &&& 0b00011111) ||| (255 &&& 0b11100000)) % 256),
          .digitalWrite TRIGGER_SEND_PIN true, .digitalWrite TRIGGER_SEND_PIN false]) ∧
    ((run env s0 n).lastAdc = ADC_INVALID → inRange (sampled env (run env s0 n)).1 →
      sends env (run env s0 n) ∧
      (loop env (run env s0 n)).lastOut
        = (mapToOut (sampled env (run env s0 n)).1 (run env s0 n)).1 ∧
      (loop env (run env s0 n)).lastOut ≤ 254 ∧
      (loop env (run env s0 n)).lastAdc = (sampled env (run env s0 n)).1 ∧
      transmitEvents (loop env (run env s0 n)).trace =
        transmitEvents (run env s0 n).trace ++ [
          .writePORTB ((((run env s0 n).PORTB &&& 0b11100000) |||
            ((loop env (run env s0 n)).lastOut &&& 0b00011111)) % 256),
          .writePORTD ((((run env s0 n).PORTD &&& 0b00011111) |||
            ((loop env (run env s0 n)).lastOut &&& 0b11100000)) % 256),
          .digitalWrite TRIGGER_SEND_PIN true, .digitalWrite TRIGGER_SEND_PIN false]) := by
  obtain ⟨hr, ho⟩ := run_invariant env s0 n
  generalize run env s0 n = s at hint hr ho ⊢
  have hmap : (mapped env s).1 = (mapToOut (sampled env s).1 s).1 :=
    mapToOut_fst_state _ _ _
  constructor
  · intro hlast hnew
    have hdelta : ¬ abs (wrapInt ((sampled env s).1 - s.lastAdc)) < ADC_DELTA :=
      delta_passes_across_sentinel (Or.inl ⟨hnew, hlast⟩)
    have hcode : (mapped env s).1 = 255 := by
      rw [hmap, hnew, mapToOut_fst, if_pos rfl]
      rfl
    have hold := (mapToOut_reading hr s).2 (inRange_ne_invalid hlast)
    have hs : sends env s := by
      refine ⟨hint, hdelta, ?_⟩
      rw [hcode, ho]
      omega
    obtain ⟨k, tr, e, k1, _⟩ := loop_eq_of_sends env s hs
    rw [hcode] at e k1
    rw [e]
    refine ⟨hs, rfl, hnew, ?_⟩
    simp only [transmitEvents, List.filter_append] at k1 ⊢
    rw [k1]
  · intro hlast hnew
    have hdelta : ¬ abs (wrapInt ((sampled env s).1 - s.lastAdc)) < ADC_DELTA :=
      delta_passes_across_sentinel (Or.inr ⟨hnew, hlast⟩)
    have hnewcode := (mapToOut_reading (Or.inr hnew) s).2 (inRange_ne_invalid hnew)
    have hold : s.lastOut = 255 := by
      rw [ho, hlast, mapToOut_fst, if_pos rfl]
      rfl
    have hs : sends env s := by
      refine ⟨hint, hdelta, ?_⟩
      rw [hmap, hold]
      omega
    obtain ⟨k, tr, e, k1, _⟩ := loop_eq_of_sends env s hs
    rw [e]
    refine ⟨hs, hmap, ?_, rfl, ?_⟩
    · show (mapped env s).1 ≤ 254
      rw [hmap]
      exact hnewcode.2
    · simp only [transmitEvents, List.filter_append] at k1 ⊢
      rw [k1]

/-- Startup with the samples 100, then a burst with a sample outside the
window: the sentinel passes both guards and 255 is sent.  Startup with a sample
outside the window, then the samples 500: the code 119 is sent. -/
theorem invalid_reading_is_transmitted_witness :
    (sends (Env.ofLists [0, 100, 100, 100, 100, 100, 100, 100, 100, 5] 100 [4500, 70000, 70300])
        (run (Env.ofLists [0, 100, 100, 100, 100, 100, 100, 100, 100, 5] 100
          [4500, 70000, 70300]) State.zero 0) ∧
      (loop (Env.ofLists [0, 100, 100, 100, 100, 100, 100, 100, 100, 5] 100 [4500, 70000, 70300])
        (run (Env.ofLists [0, 100, 100, 100, 100, 100, 100, 100, 100, 5] 100
          [4500, 70000, 70300]) State.zero 0)).lastOut = 255) ∧
    (loop (Env.ofLists [0, 5] 500 [4500, 70000, 70300])
      (run (Env.ofLists [0, 5] 500 [4500, 70000, 70300]) State.zero 0)).lastOut ≤ 254 :=
  ⟨⟨((invalid_reading_is_transmitted
        (Env.ofLists [0, 100, 100, 100, 100, 100, 100, 100, 100, 5] 100 [4500, 70000, 70300])
        State.zero 0 (by decide)).1 (by decide) (by decide)).1,
     ((invalid_reading_is_transmitted
        (Env.ofLists [0, 100, 100, 100, 100, 100, 100, 100, 100, 5] 100 [4500, 70000, 70300])
        State.zero 0 (by decide)).1 (by decide) (by decide)).2.1⟩,
   ((invalid_reading_is_transmitted (Env.ofLists [0, 5] 500 [4500, 70000, 70300])
      State.zero 0 (by decide)).2 (by decide) (by decide)).2.2.1⟩

/-! ## The send interval -/

theorem setup_clock (env : Env) (s : State) :
    (setup env s).lastSending = env.millisIn s.millisReads % 2 ^ 32 ∧
    (setup env s).millisReads = s.millisReads + 1 := by
  obtain ⟨n, tr, hm, _, _⟩ := setupMapped_frame env s
  rw [setup_eq, setOut_eq, hm]
  exact ⟨rfl, rfl⟩

/-- In every state of an execution `lastSending` is the value of an earlier
clock read, the one numbered by `sendRead`. -/
theorem run_lastSending (env : Env) (s0 : State) (n : Nat) :
    (run env s0 n).lastSending = env.millisIn (sendRead env s0 n) % 2 ^ 32 ∧
    sendRead env s0 n < (run env s0 n).millisReads := by
  induction n with
  | zero =>
    have h := setup_clock env s0
    exact ⟨h.1, by rw [show run env s0 0 = setup env s0 from rfl, h.2]; exact Nat.lt_succ_self _⟩
  | succ n ih =>
    obtain ⟨ih1, ih2⟩ := ih
    by_cases hr : refuses env (run env s0 n)
    · have hsr : sendRead env s0 (n + 1) = sendRead env s0 n := by
        rw [sendRead, if_pos hr]
      have hrun : run env s0 (n + 1) = loop env (run env s0 n) := rfl
      rw [hsr, hrun]
      rcases hr with h | h | h
      · obtain ⟨k, tr, e, _, _, _⟩ := loop_eq_of_timeNotElapsed env _ h
        rw [e]
        exact ⟨ih1, Nat.lt_succ_of_lt ih2⟩
      · obtain ⟨k, tr, e, _, _⟩ := loop_eq_of_deltaNotReached env _ h
        rw [e]
        exact ⟨ih1, Nat.lt_succ_of_lt ih2⟩
      · obtain ⟨k, tr, e, _, _⟩ := loop_eq_of_notChanged env _ h
        rw [e]
        exact ⟨ih1, Nat.lt_succ_of_lt ih2⟩
    · have hsr : sendRead env s0 (n + 1) = (run env s0 n).millisReads + 1 := by
        rw [sendRead, if_neg hr]
      have hrun : run env s0 (n + 1) = loop env (run env s0 n) := rfl
      obtain ⟨k, tr, e, _, _⟩ := loop_eq_of_sends env _ ((not_refuses_iff_sends env _).mp hr)
      rw [hsr, hrun, e]
      exact ⟨rfl, Nat.lt_succ_self _⟩

/-- With a clock that does not run backwards a passed interval guard means
that at least 60000 ms have gone by since the clock read behind `lastSending`. -/
theorem interval_passed_true_time {T t last : Nat} (hle : T ≤ t)
    (hlast : last = T % 2 ^ 32)
    (h : ¬ (((t % 2 ^ 32 : Nat) : Int) - (last : Int)) % 2 ^ 32 < 60000) :
    T + 60000 ≤ t := by
  norm_num at hlast h
  omega

/-- C18: the minimum send interval is enforced between transmissions.  In every
execution of `setup` followed by loop iterations, with a clock that does not
run backwards: `lastSending` is always the value of the clock read numbered
`sendRead`; an iteration that refuses leaves it alone; an iteration that sends
has read the clock, before sending, at least 60000 ms after the previous send
timestamp, and its own send timestamp is at least 60000 ms after the previous
one; if fewer than 2^32 ms lie between the two sends, the two consecutive
values of `lastSending` differ by at least 60000 in 32-bit arithmetic. -/
theorem send_interval_enforced (env : Env) (s0 : State)
    (hmono : ∀ i j, i ≤ j → env.millisIn i ≤ env.millisIn j) (n : Nat) :
    (run env s0 n).lastSending = env.millisIn (sendRead env s0 n) % 2 ^ 32 ∧
    (refuses env (run env s0 n) →
      (run env s0 (n + 1)).lastSending = (run env s0 n).lastSending ∧
      sendRead env s0 (n + 1) = sendRead env s0 n) ∧
    (sends env (run env s0 n) →
      env.millisIn (sendRead env s0 n) + 60000 ≤ env.millisIn (run env s0 n).millisReads ∧
      sendRead env s0 (n + 1) = (run env s0 n).millisReads + 1 ∧
      env.millisIn (sendRead env s0 n) + 60000 ≤ env.millisIn (sendRead env s0 (n + 1)) ∧
      (env.millisIn (sendRead env s0 (n + 1)) - env.millisIn (sendRead env s0 n) < 2 ^ 32 →
        60000 ≤ subU32 (run env s0 (n + 1)).lastSending (run env s0 n).lastSending)) := by
  obtain ⟨h1, h2⟩ := run_lastSending env s0 n
  obtain ⟨h1', _⟩ := run_lastSending env s0 (n + 1)
  refine ⟨h1, ?_, ?_⟩
  · intro hr
    have hsr : sendRead env s0 (n + 1) = sendRead env s0 n := by
      rw [sendRead, if_pos hr]
    refine ⟨?_, hsr⟩
    rw [h1', hsr, h1]
  · intro hs
    have hnr : ¬ refuses env (run env s0 n) := (not_refuses_iff_sends env _).mpr hs
    have hsr : sendRead env s0 (n + 1) = (run env s0 n).millisReads + 1 := by
      rw [sendRead, if_neg hnr]
    have hguard : env.millisIn (sendRead env s0 n) + 60000
        ≤ env.millisIn (run env s0 n).millisReads := by
      have hg := hs.1
      unfold timeNotElapsed elapsedMs nextMillis at hg
      exact interval_passed_true_time (hmono _ _ (Nat.le_of_lt h2)) h1 hg
    have hnext : env.millisIn (run env s0 n).millisReads
        ≤ env.millisIn ((run env s0 n).millisReads + 1) := hmono _ _ (Nat.le_succ _)
    refine ⟨hguard, hsr, ?_, ?_⟩
    · rw [hsr]
      omega
    · intro hlt
      rw [h1', h1]
      rw [hsr] at hlt ⊢
      unfold subU32
      norm_num at hlt ⊢
      omega

/-- A clock that advances 70000 ms per reading: startup sends for the samples
100 at 70000 ms; the first iteration reads the clock at 140000 ms, sends for
the samples 500 and stamps 210000 ms; the two values of `lastSending` differ by
140000. -/
theorem send_interval_enforced_witness :
    sends (Env.ticking [0, 100, 100, 100, 100, 100, 100, 100, 100] 500 70000)
      (run (Env.ticking [0, 100, 100, 100, 100, 100, 100, 100, 100] 500 70000) State.zero 0) ∧
    60000 ≤ subU32
      (run (Env.ticking [0, 100, 100, 100, 100, 100, 100, 100, 100] 500 70000)
        State.zero 1).lastSending
      (run (Env.ticking [0, 100, 100, 100, 100, 100, 100, 100, 100] 500 70000)
        State.zero 0).lastSending :=
  ⟨by decide,
    ((send_interval_enforced (Env.ticking [0, 100, 100, 100, 100, 100, 100, 100, 100] 500 70000)
      State.zero (fun _ _ h => Nat.mul_le_mul_left 70000 (Nat.succ_le_succ h)) 0).2.2
        (by decide)).2.2.2 (by decide)⟩

/-! ## Quantization -/

/-- C19: the not-changed refusal is reachable after a passed delta guard.  The
valid readings 87 and 90 are 3 apart and both get the code 0.  In the
execution that starts up with the samples 87 (code 0 sent, so
`lastOut = mapToOut(lastAdc)`) and then, 65500 ms later, samples 90, the
iteration passes the interval guard and the delta guard and refuses with
not-changed: three blinks, no transmitter event, `lastOut` still 0. -/
theorem not_changed_reachable :
    inRange 87 ∧ inRange 90 ∧ 3 ≤ Int.natAbs (90 - 87) ∧
    (mapToOut 90 State.zero).1 = (mapToOut 87 State.zero).1 ∧
    (run (Env.ofLists [0, 87, 87, 87, 87, 87, 87, 87, 87] 90 [4500, 70000]) State.zero 0).lastAdc
      = 87 ∧
    (run (Env.ofLists [0, 87, 87, 87, 87, 87, 87, 87, 87] 90 [4500, 70000]) State.zero 0).lastOut
      = (mapToOut 87 State.zero).1 ∧
    (sampled (Env.ofLists [0, 87, 87, 87, 87, 87, 87, 87, 87] 90 [4500, 70000])
      (run (Env.ofLists [0, 87, 87, 87, 87, 87, 87, 87, 87] 90 [4500, 70000]) State.zero 0)).1
      = 90 ∧
    notChanged (Env.ofLists [0, 87, 87, 87, 87, 87, 87, 87, 87] 90 [4500, 70000])
      (run (Env.ofLists [0, 87, 87, 87, 87, 87, 87, 87, 87] 90 [4500, 70000]) State.zero 0) ∧
    ledOnCount
        (run (Env.ofLists [0, 87, 87, 87, 87, 87, 87, 87, 87] 90 [4500, 70000]) State.zero 1).trace
      = ledOnCount
        (run (Env.ofLists [0, 87, 87, 87, 87, 87, 87, 87, 87] 90 [4500, 70000]) State.zero 0).trace
        + BLINK_NOT_CHANGED ∧
    transmitEvents
        (run (Env.ofLists [0, 87, 87, 87, 87, 87, 87, 87, 87] 90 [4500, 70000]) State.zero 1).trace
      = transmitEvents
        (run (Env.ofLists [0, 87, 87, 87, 87, 87, 87, 87, 87] 90 [4500, 70000]) State.zero 0).trace ∧
    (run (Env.ofLists [0, 87, 87, 87, 87, 87, 87, 87, 87] 90 [4500, 70000]) State.zero 1).lastOut
      = 0 := by
  have hnc : notChanged (Env.ofLists [0, 87, 87, 87, 87, 87, 87, 87, 87] 90 [4500, 70000])
      (run (Env.ofLists [0, 87, 87, 87, 87, 87, 87, 87, 87] 90 [4500, 70000]) State.zero 0) := by
    decide
  have hlo : (run (Env.ofLists [0, 87, 87, 87, 87, 87, 87, 87, 87] 90 [4500, 70000])
      State.zero 0).lastOut = 0 := by
    decide
  obtain ⟨n, tr, e, k1, k2⟩ := loop_eq_of_notChanged _ _ hnc
  have hrun : run (Env.ofLists [0, 87, 87, 87, 87, 87, 87, 87, 87] 90 [4500, 70000]) State.zero 1
      = loop (Env.ofLists [0, 87, 87, 87, 87, 87, 87, 87, 87] 90 [4500, 70000])
        (run (Env.ofLists [0, 87, 87, 87, 87, 87, 87, 87, 87] 90 [4500, 70000]) State.zero 0) :=
    rfl
  rw [hrun, e]
  refine ⟨by decide, by decide, by decide, by decide, by decide, by decide, by decide,
    hnc, ?_, ?_, hlo⟩
  · simp only [ledOnCount, List.count_append] at k2 ⊢
    rw [k2]
  · simp only [transmitEvents, List.filter_append] at k1 ⊢
    rw [k1]
    simp

end HmCurrentLoop
